import Mathlib

/-!
Verification of the Ruuvi gateway API proxy against its design specification.

The definitions below are shallow embeddings of the Python source:
  * `src/proxy/index.py`   — circuit breaker, retry loop, forwarding, handler
  * `src/shared/models.py` — request schema and validation
  * `src/shared/config_manager.py` — configuration store with cache
  * `src/shared/data_access.py`    — local store access (device listing, queries)
  * `src/retrieve/index.py`        — pagination token encoding/decoding

Machine integers are modelled as `Int`/`Nat`, Python dictionaries as
association lists, JSON values as an inductive `Json` type, and the
wall clock as an explicit parameter.
-/

namespace Ruuvi

/-- JSON-like values, modelling Python dict/list/str/int/bool/None payloads
as they flow through the proxy.  Objects keep their key order, matching
Python dict semantics; lookup takes the first matching key. -/
inductive Json where
  | null : Json
  | bool (b : Bool) : Json
  | num (n : Int) : Json
  | str (s : String) : Json
  | arr (xs : List Json) : Json
  | obj (kvs : List (String × Json)) : Json
deriving Repr

/-- Model of Python `d.get(k)` / `k in d` on an object: first binding wins. -/
def Json.lookup : Json → String → Option Json
  | .obj kvs, k => (kvs.find? (fun kv => kv.1 = k)).map (·.2)
  | _, _ => none

/-- Python truthiness of a JSON value (`if x:`). -/
def Json.isTruthy : Json → Bool
  | .null => false
  | .bool b => b
  | .num n => n ≠ 0
  | .str s => s ≠ ""
  | .arr xs => !xs.isEmpty
  | .obj kvs => !kvs.isEmpty

/-- Embeds `format_ruuvi_cloud_response` from `src/shared/models.py`:
success gives `\x7b"result": "success", "data": \x7b"action": action\x7d\x7d`,
failure gives an error envelope with code defaulting to `UNKNOWN_ERROR` and
message defaulting to `An error occurred`. -/
def formatRuuviCloudResponse (success : Bool) (action : String)
    (errorCode errorMessage : Option String) : Json :=
  if success then
    Json.obj [("result", Json.str "success"),
              ("data", Json.obj [("action", Json.str action)])]
  else
    Json.obj [("result", Json.str "error"),
              ("error", Json.obj
                [("code", Json.str (errorCode.getD "UNKNOWN_ERROR")),
                 ("message", Json.str (errorMessage.getD "An error occurred"))])]

/-- The synthesized local-success response
`format_ruuvi_cloud_response(success=True, action="inserted")`. -/
def localSuccessResponse : Json := formatRuuviCloudResponse true "inserted" none none

/-! ## Circuit breaker (`CircuitBreaker` in `src/proxy/index.py`) -/

/-- The three circuit breaker states. -/
inductive BState where
  | CLOSED : BState
  | OPEN : BState
  | HALF_OPEN : BState
deriving DecidableEq, Repr

/-- State of `CircuitBreaker`; `last_failure_time` is `None` until the first
recorded failure.  Times are unix seconds as `Int`. -/
structure CircuitBreaker where
  failure_threshold : Nat
  recovery_timeout : Nat
  failure_count : Nat
  last_failure_time : Option Int
  state : BState
deriving DecidableEq, Repr

/-- `CircuitBreaker.__init__`: counters zeroed, state CLOSED. -/
def CircuitBreaker.init (failure_threshold : Nat := 5) (recovery_timeout : Nat := 60) :
    CircuitBreaker :=
  { failure_threshold := failure_threshold
    recovery_timeout := recovery_timeout
    failure_count := 0
    last_failure_time := none
    state := BState.CLOSED }

/-- `CircuitBreaker.can_execute`, with the mutation of `self.state` made
explicit: in OPEN, once `now - last_failure_time >= recovery_timeout` the
state moves to HALF_OPEN and the call is permitted.  The `none` branch of
`last_failure_time` is unreachable in OPEN (OPEN is only entered through
`record_failure`, which always sets the time). -/
def CircuitBreaker.canExecute (cb : CircuitBreaker) (now : Int) : Bool × CircuitBreaker :=
  match cb.state with
  | BState.CLOSED => (true, cb)
  | BState.OPEN =>
      match cb.last_failure_time with
      | some t =>
          if now - t ≥ (cb.recovery_timeout : Int) then
            (true, { cb with state := BState.HALF_OPEN })
          else
            (false, cb)
      | none => (false, cb)
  | BState.HALF_OPEN => (true, cb)

/-- `CircuitBreaker.record_success`: reset counter, close the circuit. -/
def CircuitBreaker.recordSuccess (cb : CircuitBreaker) : CircuitBreaker :=
  { cb with failure_count := 0, state := BState.CLOSED, last_failure_time := none }

/-- `CircuitBreaker.record_failure`: bump counter, stamp the failure time,
open the circuit when the threshold is reached or when in HALF_OPEN. -/
def CircuitBreaker.recordFailure (cb : CircuitBreaker) (now : Int) : CircuitBreaker :=
  let fc := cb.failure_count + 1
  let st :=
    if fc ≥ cb.failure_threshold then BState.OPEN
    else if cb.state = BState.HALF_OPEN then BState.OPEN
    else cb.state
  { cb with failure_count := fc, last_failure_time := some now, state := st }

/-- A sequence of consecutive recorded failures at the given instants. -/
def recordFailures (cb : CircuitBreaker) (ts : List Int) : CircuitBreaker :=
  ts.foldl CircuitBreaker.recordFailure cb

/-! ## Forwarding engine (`handle_ruuvi_cloud_forwarding` in `src/proxy/index.py`) -/

/-- Outcome of one `client.send_sensor_data` call inside the retry loop:
the client returned `(True, resp)`, returned `(False, resp)`, or raised. -/
inductive AttemptOutcome where
  | ok (resp : Json) : AttemptOutcome
  | err (resp : Json) : AttemptOutcome
  | exn : AttemptOutcome

/-- The fixed allow-list of retryable error codes from the retry loop. -/
def retryableCodes : List String :=
  ["TIMEOUT_ERROR", "CONNECTION_ERROR", "HTTP_500", "HTTP_502", "HTTP_503", "HTTP_504"]

/-- Embeds `response.get('error', \x7b\x7d).get('code', '')` followed by the
membership test against the allow-list.  A non-string code is never a member
of the allow-list, matching the Python membership test. -/
def errorCodeOf (resp : Json) : String :=
  match resp.lookup "error" with
  | some e =>
      match e.lookup "code" with
      | some (Json.str s) => s
      | _ => ""
  | none => ""

/-- Whether an attempt is a client failure whose error code is retryable. -/
def isRetryableErr : AttemptOutcome → Bool
  | AttemptOutcome.err r => errorCodeOf r ∈ retryableCodes
  | _ => false

/-- The error response carried by a failed attempt (`Json.null` otherwise). -/
def errRespOf : AttemptOutcome → Json
  | AttemptOutcome.err r => r
  | _ => Json.null

/-- `max_retries = 3` from the retry loop. -/
def maxRetries : Nat := 3

/-- Observable result of `handle_ruuvi_cloud_forwarding`: the returned triple
plus its externally visible effects — how many client calls were made, which
`time.sleep` delays ran, and how many circuit breaker successes/failures were
recorded. -/
structure FwdOutcome where
  success : Bool
  response : Json
  wasForwarded : Bool
  attempts : Nat
  sleeps : List Nat
  breakerSuccesses : Nat
  breakerFailures : Nat

/-- Embeds the `for attempt in range(max_retries + 1)` retry loop.  `att` maps
the attempt index to the outcome of that client call, `delay` is the current
backoff (`retry_delay`, doubled after each sleep), `fuel` is the number of
loop iterations remaining (`max_retries + 1 - attempt`); the `0` case is the
loop falling through, unreachable because every branch of the final
iteration returns. -/
def retryLoop (att : Nat → AttemptOutcome) : Nat → Nat → Nat → FwdOutcome
  | _, _, 0 =>
      { success := false, response := Json.null, wasForwarded := true,
        attempts := 0, sleeps := [], breakerSuccesses := 0, breakerFailures := 0 }
  | attempt, delay, fuel + 1 =>
      match att attempt with
      | AttemptOutcome.ok r =>
          { success := true, response := r, wasForwarded := true,
            attempts := 1, sleeps := [], breakerSuccesses := 1, breakerFailures := 0 }
      | AttemptOutcome.err r =>
          if errorCodeOf r ∉ retryableCodes ∨ attempt = maxRetries then
            { success := false, response := r, wasForwarded := true,
              attempts := 1, sleeps := [], breakerSuccesses := 0, breakerFailures := 1 }
          else
            let rest := retryLoop att (attempt + 1) (delay * 2) fuel
            { rest with attempts := rest.attempts + 1, sleeps := delay :: rest.sleeps }
      | AttemptOutcome.exn =>
          if attempt = maxRetries then
            { success := false,
              response := formatRuuviCloudResponse false "inserted"
                (some "FORWARDING_EXCEPTION")
                (some "Forwarding failed after 4 attempts"),
              wasForwarded := true,
              attempts := 1, sleeps := [], breakerSuccesses := 0, breakerFailures := 1 }
          else
            let rest := retryLoop att (attempt + 1) (delay * 2) fuel
            { rest with attempts := rest.attempts + 1, sleeps := delay :: rest.sleeps,
                        breakerFailures := rest.breakerFailures + 1 }

/-- Environment of one `handle_ruuvi_cloud_forwarding` call: whether the
configuration read raised, the forwarding toggle, the process-global breaker
state, the current time, and the outcome each client call would have. -/
structure ForwardEnv where
  configFault : Bool
  forwardingEnabled : Bool
  breaker : CircuitBreaker
  now : Int
  att : Nat → AttemptOutcome

/-- The circuit breaker error response returned when the breaker is open. -/
def circuitOpenResponse : Json :=
  formatRuuviCloudResponse false "inserted"
    (some "CIRCUIT_BREAKER_OPEN")
    (some "Ruuvi Cloud service temporarily unavailable")

/-- Embeds `handle_ruuvi_cloud_forwarding`.  A fault while reading the
configuration is absorbed by the outer `except` and yields the local-success
triple `(True, local_success, False)`; forwarding disabled yields the same;
an open breaker yields `(False, circuit_open_error, True)` without any
client call; otherwise the retry loop runs with 4 iterations of fuel. -/
def handleForwarding (env : ForwardEnv) : FwdOutcome :=
  if env.configFault then
    { success := true, response := localSuccessResponse, wasForwarded := false,
      attempts := 0, sleeps := [], breakerSuccesses := 0, breakerFailures := 0 }
  else if !env.forwardingEnabled then
    { success := true, response := localSuccessResponse, wasForwarded := false,
      attempts := 0, sleeps := [], breakerSuccesses := 0, breakerFailures := 0 }
  else if !(env.breaker.canExecute env.now).1 then
    { success := false, response := circuitOpenResponse, wasForwarded := true,
      attempts := 0, sleeps := [], breakerSuccesses := 0, breakerFailures := 0 }
  else
    retryLoop env.att 0 1 (maxRetries + 1)

/-! ## Local storage (`store_sensor_data_locally` in `src/proxy/index.py`) -/

/-- One per-device entry of a validated batch (`tags[device_id]`). -/
structure TagData where
  rssi : Int
  timestamp : Int
  data : String

/-- A validated `RuuviGatewayRequest`. -/
structure Batch where
  coordinates : String
  timestamp : Int
  gwmac : String
  tags : List (String × TagData)

/-- One item handed to `store_batch_sensor_data`; `ruuvi_cloud_response` is
present only when the attach condition held. -/
structure StoredItem where
  device_id : String
  gateway_id : String
  timestamp : Int
  rssi : Int
  data : String
  gateway_timestamp : Int
  coordinates : String
  ruuvi_cloud_response : Option Json

/-- The attach condition of `store_sensor_data_locally`:
`ruuvi_cloud_response and ruuvi_cloud_response.get('result') == 'success'
and 'data' in ruuvi_cloud_response`. -/
def attachCondition (resp : Option Json) : Bool :=
  match resp with
  | none => false
  | some r =>
      r.isTruthy &&
      (match r.lookup "result" with
       | some (Json.str s) => s = "success"
       | _ => false) &&
      (r.lookup "data").isSome

/-- Embeds the item-construction loop of `store_sensor_data_locally`:
every tag of the batch becomes one stored item, with the Ruuvi Cloud
response attached exactly when the attach condition holds. -/
def storeItems (b : Batch) (resp : Option Json) : List StoredItem :=
  b.tags.map fun kv =>
    { device_id := kv.1
      gateway_id := b.gwmac
      timestamp := kv.2.timestamp
      rssi := kv.2.rssi
      data := kv.2.data
      gateway_timestamp := b.timestamp
      coordinates := b.coordinates
      ruuvi_cloud_response := if attachCondition resp then resp else none }

/-! ## Handler (`lambda_handler` in `src/proxy/index.py`) -/

/-- Caller-visible result of the handler plus the items written locally. -/
structure HandlerResult where
  status : Nat
  body : Json
  stored : List StoredItem

/-- Embeds `lambda_handler` from request validation onward: an invalid batch
returns 400 with a validation error envelope; a valid batch runs forwarding,
stores every reading locally — attaching the vendor response only when
forwarding was attempted and succeeded — and returns 200 with the vendor
response verbatim when forwarding succeeded, else the synthesized
local-success response.  The storage outcome does not influence the
response. -/
def lambdaHandler (validationOk : Bool) (b : Batch) (env : ForwardEnv) : HandlerResult :=
  if !validationOk then
    { status := 400
      body := formatRuuviCloudResponse false "inserted"
        (some "VALIDATION_ERROR") (some "validation failed")
      stored := [] }
  else
    let f := handleForwarding env
    let respForStorage := if f.wasForwarded && f.success then some f.response else none
    let stored := storeItems b respForStorage
    let body := if f.success then f.response else localSuccessResponse
    { status := 200, body := body, stored := stored }

/-! ## Concrete environments used by counterexamples and witnesses -/

/-- A vendor 200-response whose JSON body is `\x7b"result": "success"\x7d`
with no `data` member: the client reports the forward as succeeded, yet the
attach condition of `store_sensor_data_locally` fails. -/
def vendorNoDataResponse : Json := Json.obj [("result", Json.str "success")]

/-- The documented vendor success envelope. -/
def vendorOkResponse : Json :=
  Json.obj [("result", Json.str "success"), ("data", Json.obj [("action", Json.str "inserted")])]

/-- Forwarding environment whose first attempt succeeds with a response that
lacks the `data` member. -/
def envVendorNoData : ForwardEnv :=
  { configFault := false, forwardingEnabled := true, breaker := CircuitBreaker.init 5 60,
    now := 0, att := fun _ => AttemptOutcome.ok vendorNoDataResponse }

/-- Forwarding environment whose first attempt succeeds with the documented
vendor success envelope. -/
def envVendorOk : ForwardEnv :=
  { configFault := false, forwardingEnabled := true, breaker := CircuitBreaker.init 5 60,
    now := 0, att := fun _ => AttemptOutcome.ok vendorOkResponse }

/-- Forwarding environment in which the circuit breaker is OPEN and inside
its recovery window, so no client call can be attempted. -/
def envBreakerOpen : ForwardEnv :=
  { configFault := false, forwardingEnabled := true,
    breaker := { failure_threshold := 5, recovery_timeout := 60, failure_count := 5,
                 last_failure_time := some 100, state := BState.OPEN },
    now := 110, att := fun _ => AttemptOutcome.exn }

/-- A timeout error response as built by `RuuviCloudClient.send_sensor_data`. -/
def timeoutErrResponse : Json :=
  formatRuuviCloudResponse false "inserted" (some "TIMEOUT_ERROR")
    (some "Request timeout after 25 seconds")

/-- A validation error response (non-retryable code). -/
def validationErrResponse : Json :=
  formatRuuviCloudResponse false "inserted" (some "VALIDATION_ERROR")
    (some "Bad request")

/-- Forwarding environment where every attempt times out. -/
def envAllTimeout : ForwardEnv :=
  { configFault := false, forwardingEnabled := true, breaker := CircuitBreaker.init 5 60,
    now := 0, att := fun _ => AttemptOutcome.err timeoutErrResponse }

/-- A validated single-tag batch (gateway `AA:BB:CC:DD:EE:FF`, device
`AABBCCDDEEFF`). -/
def batchOneTag : Batch :=
  { coordinates := "", timestamp := 1700000000, gwmac := "AA:BB:CC:DD:EE:FF",
    tags := [("AABBCCDDEEFF", { rssi := -65, timestamp := 1700000000, data := "dGVzdA==" })] }

/-- The item stored for `batchOneTag` when the vendor success envelope was
returned by the forward. -/
def storedItemVendorOk : StoredItem :=
  { device_id := "AABBCCDDEEFF", gateway_id := "AA:BB:CC:DD:EE:FF", timestamp := 1700000000,
    rssi := -65, data := "dGVzdA==", gateway_timestamp := 1700000000, coordinates := "",
    ruuvi_cloud_response := some vendorOkResponse }

/-! ## Configuration manager (`src/shared/config_manager.py`) -/

/-- Python values a configuration entry can take.  Structured (dict/list)
values are accepted by the source but are outside every claim; the scalar
constructors below cover all validated configuration keys.  `pybool` is kept
separate because Python `bool` is a subclass of `int`, which the
`isinstance` checks below must respect. -/
inductive PyVal where
  | pybool (b : Bool) : PyVal
  | pyint (n : Int) : PyVal
  | pyfloat (q : Rat) : PyVal
  | pystr (s : String) : PyVal
deriving DecidableEq, Repr

/-- `isinstance(v, bool)`. -/
def PyVal.isBool : PyVal → Bool
  | .pybool _ => true
  | _ => false

/-- `isinstance(v, int)` — Python booleans are integers. -/
def PyVal.isIntLike : PyVal → Bool
  | .pybool _ => true
  | .pyint _ => true
  | _ => false

/-- `isinstance(v, (int, float))`. -/
def PyVal.isNumLike : PyVal → Bool
  | .pybool _ => true
  | .pyint _ => true
  | .pyfloat _ => true
  | _ => false

/-- `isinstance(v, str)`. -/
def PyVal.isStr : PyVal → Bool
  | .pystr _ => true
  | _ => false

/-- Numeric value used in range comparisons (True counts as 1, False as 0);
only evaluated behind the `isinstance` guards. -/
def PyVal.toIntD : PyVal → Int
  | .pybool b => if b then 1 else 0
  | .pyint n => n
  | _ => 0

/-- Rational value for the int-or-float timeout comparison. -/
def PyVal.toRatD : PyVal → Rat
  | .pybool b => if b then 1 else 0
  | .pyint n => (n : Rat)
  | .pyfloat q => q
  | _ => 0

/-- String payload for the endpoint check. -/
def PyVal.strD : PyVal → String
  | .pystr s => s
  | _ => ""

/-- `ConfigurationManager._validate_config`: the per-key validators; unknown
keys are allowed (with a warning) and validate to true. -/
def validateConfig (key : String) (v : PyVal) : Bool :=
  if key = "forwarding_enabled" then v.isBool
  else if key = "data_retention_days" then
    v.isIntLike && decide (1 ≤ v.toIntD ∧ v.toIntD ≤ 3650)
  else if key = "ruuvi_cloud_endpoint" then
    v.isStr && (v.strD.startsWith "http://" || v.strD.startsWith "https://")
  else if key = "ruuvi_cloud_timeout" then
    v.isNumLike && decide ((1 : Rat) ≤ v.toRatD ∧ v.toRatD ≤ 300)
  else if key = "max_batch_size" then
    v.isIntLike && decide (1 ≤ v.toIntD ∧ v.toIntD ≤ 100)
  else if key = "cache_ttl_seconds" then
    v.isIntLike && decide (1 ≤ v.toIntD ∧ v.toIntD ≤ 3600)
  else true

/-- `ConfigurationManager._serialize_value` on scalars: `str(value)`. -/
def serializeValue : PyVal → String
  | .pybool true => "True"
  | .pybool false => "False"
  | .pyint n => toString n
  | .pyfloat q => toString q
  | .pystr s => s

/-- Digit characters of a string, model helper for `int(s)`. -/
def parseIntString (s : String) : Option Int :=
  let l := s.toList
  let (neg, ds) := match l with
    | '-' :: rest => (true, rest)
    | _ => (false, l)
  if ds ≠ [] ∧ ds.all Char.isDigit then
    let n : Nat := ds.foldl (fun acc c => acc * 10 + (c.toNat - '0'.toNat)) 0
    some (if neg then -(n : Int) else (n : Int))
  else
    none

/-- Model of `json.loads` restricted to the scalar literals that
`_serialize_value` can produce (`true`, `false`, integers, quoted plain
strings); everything else falls through to the typed fallback chain, which
replicates the remaining Python behaviour. -/
def pyJsonLoads (s : String) : Option PyVal :=
  if s = "true" then some (PyVal.pybool true)
  else if s = "false" then some (PyVal.pybool false)
  else
    match parseIntString s with
    | some n => some (PyVal.pyint n)
    | none =>
        let l := s.toList
        match l with
        | '"' :: rest =>
            if rest ≠ [] ∧ rest.getLast? = some '"' ∧
                (rest.dropLast.all fun c => c ≠ '"' ∧ c ≠ '\\') then
              some (PyVal.pystr (String.mk rest.dropLast))
            else none
        | _ => none

/-- Decimal float literal (`digits.digits`, optional sign), model helper for
the `float(s)` fallback on the forms `str()` produces. -/
def parseFloatString (s : String) : Option Rat :=
  let l := s.toList
  let (neg, body) := match l with
    | '-' :: rest => (true, rest)
    | _ => (false, l)
  let ip := body.takeWhile Char.isDigit
  match body.drop ip.length with
  | '.' :: fp =>
      if ip ≠ [] ∧ fp ≠ [] ∧ fp.all Char.isDigit then
        let ipart : Nat := ip.foldl (fun acc c => acc * 10 + (c.toNat - '0'.toNat)) 0
        let fpart : Nat := fp.foldl (fun acc c => acc * 10 + (c.toNat - '0'.toNat)) 0
        let q : Rat := (ipart : Rat) + (fpart : Rat) / ((10 : Rat) ^ fp.length)
        some (if neg then -q else q)
      else none
  | _ => none

/-- `ConfigurationManager._deserialize_value`: try `json.loads`, then the
boolean literals case-insensitively, then `int` when no dot is present, then
`float`, else keep the raw string. -/
def deserializeValue (s : String) : PyVal :=
  match pyJsonLoads s with
  | some v => v
  | none =>
      if s.toLower = "true" then PyVal.pybool true
      else if s.toLower = "false" then PyVal.pybool false
      else
        match (if !(s.contains '.') then parseIntString s else none) with
        | some n => PyVal.pyint n
        | none =>
            match parseFloatString s with
            | some q => PyVal.pyfloat q
            | none => PyVal.pystr s

/-- One persisted configuration row (`config_key` is the association key). -/
structure StoreEntry where
  config_value : String
  last_updated : Int
  updated_by : String
deriving DecidableEq, Repr

/-- One in-memory cache entry (`value` plus the time it was cached). -/
structure CacheEntry where
  value : PyVal
  timestamp : Int
deriving DecidableEq, Repr

/-- State of a `ConfigurationManager`: the backing table, the cache and the
cache TTL. -/
structure ConfigState where
  store : List (String × StoreEntry)
  cache : List (String × CacheEntry)
  cache_ttl_seconds : Nat
deriving DecidableEq, Repr

/-- Dictionary write: replace in place or append, preserving key order. -/
def putAssoc {α : Type} : List (String × α) → String → α → List (String × α)
  | [], k, v => [(k, v)]
  | (k0, v0) :: rest, k, v =>
      if k0 = k then (k, v) :: rest else (k0, v0) :: putAssoc rest k v

/-- Dictionary read: first binding wins. -/
def lookupAssoc {α : Type} (l : List (String × α)) (k : String) : Option α :=
  (l.find? (fun kv => kv.1 = k)).map (·.2)

/-- `ConfigurationManager.set_config`: reject (returning the state untouched)
when the validator refuses the value; otherwise persist the serialized value
with the current time and updater identity and write through to the cache. -/
def setConfig (st : ConfigState) (now : Int) (key : String) (v : PyVal)
    (updatedBy : String) : Bool × ConfigState :=
  if !(validateConfig key v) then (false, st)
  else
    (true,
      { st with
        store := putAssoc st.store key
          { config_value := serializeValue v, last_updated := now, updated_by := updatedBy }
        cache := putAssoc st.cache key { value := v, timestamp := now } })

/-- Built-in defaults (`self._defaults`). -/
def systemDefault (key : String) : Option PyVal :=
  lookupAssoc
    [("forwarding_enabled", PyVal.pybool true),
     ("data_retention_days", PyVal.pyint 90),
     ("ruuvi_cloud_endpoint", PyVal.pystr "https://network.ruuvi.com/record"),
     ("ruuvi_cloud_timeout", PyVal.pyint 25),
     ("max_batch_size", PyVal.pyint 25),
     ("cache_ttl_seconds", PyVal.pyint 300)] key

/-- The cache-miss path of `get_config`: read through to the store, cache the
deserialized value; on an absent row fall back to the caller default, else
the system default (possibly absent). -/
def configReadThrough (st : ConfigState) (now : Int) (key : String)
    (deflt : Option PyVal) : Option PyVal × ConfigState :=
  match lookupAssoc st.store key with
  | some it =>
      let v := deserializeValue it.config_value
      (some v, { st with cache := putAssoc st.cache key { value := v, timestamp := now } })
  | none =>
      match deflt with
      | some d => (some d, st)
      | none => (systemDefault key, st)

/-- `ConfigurationManager.get_config`: serve from the cache while the entry
age is below the TTL, otherwise read through. -/
def getConfig (st : ConfigState) (now : Int) (key : String)
    (deflt : Option PyVal) : Option PyVal × ConfigState :=
  match lookupAssoc st.cache key with
  | some e =>
      if now - e.timestamp < (st.cache_ttl_seconds : Int) then (some e.value, st)
      else configReadThrough st now key deflt
  | none => configReadThrough st now key deflt

/-! ## Request validation (`src/shared/models.py`) -/

/-- Characters of the base64 alphabet (`[A-Za-z0-9+/]`). -/
def isB64Char (c : Char) : Bool :=
  ('A' ≤ c && c ≤ 'Z') || ('a' ≤ c && c ≤ 'z') || c.isDigit || c == '+' || c == '/'

/-- Case-insensitive hex digit (`[0-9A-Fa-f]`). -/
def isHexDigitCI (c : Char) : Bool :=
  c.isDigit || ('A' ≤ c && c ≤ 'F') || ('a' ≤ c && c ≤ 'f')

/-- Uppercase hex digit (`[0-9A-F]`). -/
def isHexUpperDigit (c : Char) : Bool :=
  c.isDigit || ('A' ≤ c && c ≤ 'F')

/-- The device-key pattern `^[0-9A-F]\x7b12\x7d$` shared by the schema and
`RuuviSensorData._validate_device_id`. -/
def deviceKeyOk (s : String) : Bool :=
  s.length == 12 && s.toList.all isHexUpperDigit

/-- Groups of the MAC pattern: two hex digits then a `:`/`-` separator,
repeated, with the sixth (index 5) group last. -/
def macAux : List Char → Nat → Bool
  | [a, b], n => n == 5 && isHexDigitCI a && isHexDigitCI b
  | a :: b :: sep :: rest, n =>
      isHexDigitCI a && isHexDigitCI b && (sep == ':' || sep == '-') && macAux rest (n + 1)
  | _, _ => false

/-- The gateway MAC pattern `^([0-9A-Fa-f]\x7b2\x7d[:-])\x7b5\x7d([0-9A-Fa-f]\x7b2\x7d)$`. -/
def macOk (s : String) : Bool := macAux s.toList 0

/-- The schema's base64 character pattern `^[A-Za-z0-9+/]*=\x7b0,2\x7d$`. -/
def b64Shape (s : String) : Bool :=
  let rest := s.toList.dropWhile isB64Char
  rest.length ≤ 2 && rest.all (· == '=')

/-- `RuuviSensorData._validate_base64`: empty data is allowed, otherwise
models acceptance of `base64.b64decode(data, validate=True)` — every
character must be base64 alphabet or trailing padding, the number of data
characters may not be 1 modulo 4, and a final partial quantum needs at
least one padding character (the lenient decoder ignores excess padding). -/
def validateBase64 (s : String) : Bool :=
  if s.isEmpty then true
  else
    let l := s.toList
    let ds := l.takeWhile isB64Char
    let ps := l.drop ds.length
    ps.all (· == '=') && ds.length % 4 != 1 && (ds.length % 4 == 0 || ps.length ≥ 1)

/-- Per-tag object schema: only `rssi`/`timestamp`/`data` keys, all three
required, `rssi` an integer in `[-120, 0]`, `timestamp` a non-negative
integer, `data` a string matching the base64 character pattern.  In
jsonschema, JSON booleans do not satisfy `"type": "integer"`. -/
def tagSchemaOk : Json → Bool
  | Json.obj kvs =>
      kvs.all (fun kv => kv.1 == "rssi" || kv.1 == "timestamp" || kv.1 == "data") &&
      (match lookupAssoc kvs "rssi" with
       | some (Json.num n) => -120 ≤ n && n ≤ 0
       | _ => false) &&
      (match lookupAssoc kvs "timestamp" with
       | some (Json.num n) => 0 ≤ n
       | _ => false) &&
      (match lookupAssoc kvs "data" with
       | some (Json.str s) => b64Shape s
       | _ => false)
  | _ => false

/-- The `tags` object schema: at least one property, every key matching the
device pattern (`patternProperties` plus `additionalProperties: false`
disallow any other key) and every value matching the per-tag schema. -/
def tagsSchemaOk : Json → Bool
  | Json.obj kvs =>
      !kvs.isEmpty &&
      kvs.all (fun kv => deviceKeyOk kv.1 && tagSchemaOk kv.2)
  | _ => false

/-- The `data` object schema: only the four declared keys, required
`timestamp`/`gwmac`/`tags`, optional string `coordinates`, non-negative
integer batch timestamp, MAC-patterned gateway id. -/
def dataSchemaOk : Json → Bool
  | Json.obj kvs =>
      kvs.all (fun kv =>
        kv.1 == "coordinates" || kv.1 == "timestamp" || kv.1 == "gwmac" || kv.1 == "tags") &&
      (match lookupAssoc kvs "coordinates" with
       | none => true
       | some (Json.str _) => true
       | some _ => false) &&
      (match lookupAssoc kvs "timestamp" with
       | some (Json.num n) => 0 ≤ n
       | _ => false) &&
      (match lookupAssoc kvs "gwmac" with
       | some (Json.str s) => macOk s
       | _ => false) &&
      (match lookupAssoc kvs "tags" with
       | some t => tagsSchemaOk t
       | none => false)
  | _ => false

/-- `RUUVI_GATEWAY_REQUEST_SCHEMA`: a single required `data` object and no
other top-level key. -/
def schemaValidate : Json → Bool
  | Json.obj kvs =>
      kvs.all (fun kv => kv.1 == "data") &&
      (match lookupAssoc kvs "data" with
       | some d => dataSchemaOk d
       | none => false)
  | _ => false

/-- `RuuviSensorData.from_dict` succeeding for one tag entry: valid device
id, `rssi` (default 0) an int in `[-120, 0]` — Python booleans count as
ints — `timestamp` (default 0) a non-negative int, and `data` (default
empty) passing the strict base64 check.  A non-object entry cannot occur
here because the callers run only after schema validation. -/
def fromDictOk (deviceId : String) : Json → Bool
  | Json.obj kvs =>
      deviceKeyOk deviceId &&
      (match lookupAssoc kvs "rssi" with
       | none => true
       | some (Json.num n) => -120 ≤ n && n ≤ 0
       | some (Json.bool b) => !b
       | some _ => false) &&
      (match lookupAssoc kvs "timestamp" with
       | none => true
       | some (Json.num n) => 0 ≤ n
       | some (Json.bool _) => true
       | some _ => false) &&
      (match lookupAssoc kvs "data" with
       | none => true
       | some (Json.str s) => validateBase64 s
       | some _ => false)
  | _ => false

/-- `RuuviGatewayRequest.get_sensor_data_list`: entries whose `from_dict`
raises are skipped with a warning; the rest survive. -/
def sensorDataList (tags : List (String × Json)) : List (String × Json) :=
  tags.filter (fun kv => fromDictOk kv.1 kv.2)

/-- `validate_ruuvi_request`: schema validation aborts on failure; then the
business checks — the MAC pattern again, the batch timestamp within 24 h of
the current time, and a non-empty surviving sensor list — must all hold. -/
def validateRuuviRequest (now : Int) (j : Json) : Bool :=
  schemaValidate j &&
  (match j.lookup "data" with
   | some d =>
       (match d.lookup "gwmac" with
        | some (Json.str g) => macOk g
        | _ => false) &&
       (match d.lookup "timestamp" with
        | some (Json.num ts) => (now - ts).natAbs ≤ 86400
        | _ => false) &&
       (match d.lookup "tags" with
        | some (Json.obj tkvs) => !(sensorDataList tkvs).isEmpty
        | _ => false)
   | none => false)

/-- Raw JSON of one tag entry. -/
def mkTag (rssi ts : Int) (dataStr : String) : Json :=
  Json.obj [("rssi", Json.num rssi), ("timestamp", Json.num ts), ("data", Json.str dataStr)]

/-- Raw JSON of a gateway batch. -/
def mkBatch (coords : String) (ts : Int) (gwmac : String)
    (tags : List (String × Json)) : Json :=
  Json.obj [("data", Json.obj
    [("coordinates", Json.str coords), ("timestamp", Json.num ts),
     ("gwmac", Json.str gwmac), ("tags", Json.obj tags)])]

/-- A batch whose first tag fails only the signal-strength check
(`rssi = -121`) while the second tag is fully valid. -/
def badRssiBatch : Json :=
  mkBatch "" 1700000000 "AA:BB:CC:DD:EE:FF"
    [("AABBCCDDEEFF", mkTag (-121) 1700000000 ""),
     ("AABBCCDDEE00", mkTag (-65) 1700000000 "dGVzdA==")]

/-- The same batch with the malformed-rssi entry removed. -/
def goodOnlyBatch : Json :=
  mkBatch "" 1700000000 "AA:BB:CC:DD:EE:FF"
    [("AABBCCDDEE00", mkTag (-65) 1700000000 "dGVzdA==")]

/-! ## Pagination cursor (`encode_next_token` / `validate_query_parameters`
in `src/retrieve/index.py`) -/

/-- The store's last-evaluated key for a historical (single-device) query:
the device id and the range key timestamp. -/
structure LastKey where
  device_id : String
  timestamp : Nat
deriving DecidableEq, Repr

/-- The decimal digit character of `d` (for `d < 10`). -/
def digitChar (d : Nat) : Char := Char.ofNat (48 + d)

/-- Decimal digits of `n`, most significant first; `fuel` bounds the
recursion depth (any `fuel > n` is enough). -/
def digitsOfAux : Nat → Nat → List Char
  | 0, _ => []
  | fuel + 1, n =>
      if n < 10 then [digitChar n]
      else digitsOfAux fuel (n / 10) ++ [digitChar (n % 10)]

/-- Decimal rendering of a natural number, as `json.dumps` prints it. -/
def digitsOf (n : Nat) : List Char := digitsOfAux (n + 1) n

/-- Value of a decimal digit string, as `json.loads` reads it. -/
def natOfDigits (ds : List Char) : Nat :=
  ds.foldl (fun acc c => acc * 10 + (c.toNat - 48)) 0

/-- Characters that `json.dumps` emits verbatim inside a string literal:
printable ASCII other than the quote and the backslash.  Device ids and
gateway MACs satisfy this. -/
def plainChar (c : Char) : Bool :=
  32 ≤ c.toNat && c.toNat < 127 && c ≠ '"' && c ≠ '\\'

/-- `json.dumps(last_evaluated_key)` for the two-field key, with the default
`", "` / `": "` separators. -/
def dumpsLastKey (k : LastKey) : List Char :=
  "\x7b\"device_id\": \"".toList ++ k.device_id.toList ++
    "\", \"timestamp\": ".toList ++ digitsOf k.timestamp ++ ['\x7d']

/-- `json.loads` restricted to the object shape `dumpsLastKey` produces. -/
def parseLastKeyChars (l : List Char) : Option LastKey :=
  let p1 := "\x7b\"device_id\": \"".toList
  if l.take p1.length = p1 then
    let r1 := l.drop p1.length
    let dev := r1.takeWhile (fun c => c ≠ '"')
    let r2 := r1.drop dev.length
    let p2 := "\", \"timestamp\": ".toList
    if r2.take p2.length = p2 then
      let r3 := r2.drop p2.length
      let ds := r3.takeWhile Char.isDigit
      if ds ≠ [] ∧ r3 = ds ++ ['\x7d'] then
        some { device_id := String.mk dev, timestamp := natOfDigits ds }
      else none
    else none
  else none

/-- The base64 alphabet in index order. -/
def b64Alphabet : List Char :=
  "ABCDEFGHIJKLMNOPQRSTUVWXYZabcdefghijklmnopqrstuvwxyz0123456789+/".toList

/-- Character of a sextet value. -/
def e64 (n : Nat) : Char := b64Alphabet.getD n 'A'

/-- Sextet value of a character (`none` for padding and foreign chars). -/
def d64 (c : Char) : Option Nat := b64Alphabet.findIdx? (fun x => x = c)

/-- `base64.b64encode` on a byte list: three bytes per four characters,
with `=` padding for a final partial group. -/
def b64encodeBytes : List Nat → List Char
  | [] => []
  | [a] => [e64 (a / 4), e64 (a % 4 * 16), '=', '=']
  | [a, b] => [e64 (a / 4), e64 (a % 4 * 16 + b / 16), e64 (b % 16 * 4), '=']
  | a :: b :: c :: rest =>
      e64 (a / 4) :: e64 (a % 4 * 16 + b / 16) :: e64 (b % 16 * 4 + c / 64) ::
        e64 (c % 64) :: b64encodeBytes rest

/-- `base64.b64decode` on well-formed input: four characters per group, a
padded group only at the end. -/
def b64decodeChars : List Char → Option (List Nat)
  | [] => some []
  | c1 :: c2 :: c3 :: c4 :: rest =>
      if c3 = '=' ∧ c4 = '=' then
        if rest = [] then
          match d64 c1, d64 c2 with
          | some n1, some n2 => some [n1 * 4 + n2 / 16]
          | _, _ => none
        else none
      else if c4 = '=' then
        if rest = [] then
          match d64 c1, d64 c2, d64 c3 with
          | some n1, some n2, some n3 =>
              some [n1 * 4 + n2 / 16, n2 % 16 * 16 + n3 / 4]
          | _, _, _ => none
        else none
      else
        match d64 c1, d64 c2, d64 c3, d64 c4, b64decodeChars rest with
        | some n1, some n2, some n3, some n4, some bs =>
            some ((n1 * 4 + n2 / 16) :: (n2 % 16 * 16 + n3 / 4) :: (n3 % 4 * 64 + n4) :: bs)
        | _, _, _, _, _ => none
  | _ => none

/-- UTF-8 encoding of an ASCII string (all device ids and JSON punctuation
are ASCII, where UTF-8 is the identity on code points). -/
def strToBytes (cs : List Char) : List Nat := cs.map Char.toNat

/-- UTF-8 decoding restricted to ASCII bytes. -/
def bytesToChars (bs : List Nat) : Option (List Char) :=
  if bs.all (fun b => b < 128) then some (bs.map Char.ofNat) else none

/-- `encode_next_token`: `base64.b64encode(json.dumps(key).encode())`. -/
def encodeNextToken (k : LastKey) : List Char :=
  b64encodeBytes (strToBytes (dumpsLastKey k))

/-- The `next_token` handling of `validate_query_parameters`:
`json.loads(base64.b64decode(token).decode())`. -/
def decodeNextToken (tok : List Char) : Option LastKey :=
  (b64decodeChars tok).bind (fun bs => (bytesToChars bs).bind parseLastKeyChars)

/-- One stored reading of the queried device, identified by its range key. -/
structure HistItem where
  timestamp : Nat
  data : String
deriving DecidableEq, Repr

/-- Modelled from the spec: the Local Store's range query as `§4.5
getHistorical` describes it over the store's key-value/range interface
(DynamoDB itself is outside the repository) — the device's readings sorted
ascending by timestamp, an exclusive start key resuming strictly after the
cursor position, at most `limit` items returned, and a forward cursor (the
key of the last returned item) exactly when more results exist beyond the
limit. -/
def queryPage (items : List HistItem) (startAfter : Option Nat) (limit : Nat) :
    List HistItem × Option Nat :=
  let after := match startAfter with
    | none => items
    | some t => items.filter (fun it => t < it.timestamp)
  let page := after.take limit
  (page, if limit < after.length then (page.getLast?).map (fun it => it.timestamp) else none)

/-! ## Time bounds of the store queries (`src/shared/data_access.py`) -/

/-- The timestamp key condition attached to a query. -/
inductive TimeCond where
  | noBound : TimeCond
  | between (s e : Int) : TimeCond
  | gte (s : Int) : TimeCond
  | lte (e : Int) : TimeCond
deriving DecidableEq, Repr

/-- Python truthiness of an optional integer argument (`if start_time:`):
`None` and `0` are both falsy. -/
def intTruthy : Option Int → Bool
  | some n => n ≠ 0
  | none => false

/-- Embeds the key-condition construction shared verbatim by
`get_historical_data` (lines 169-176) and `get_devices_by_gateway`
(lines 245-250): truthiness tests, not `None` tests, select the bound. -/
def buildTimeCondition (start_time end_time : Option Int) : TimeCond :=
  if intTruthy start_time && intTruthy end_time then
    TimeCond.between (start_time.getD 0) (end_time.getD 0)
  else if intTruthy start_time then TimeCond.gte (start_time.getD 0)
  else if intTruthy end_time then TimeCond.lte (end_time.getD 0)
  else TimeCond.noBound

/-- Whether a reading timestamp satisfies the condition the query was issued
with. -/
def TimeCond.holds : TimeCond → Int → Bool
  | .noBound, _ => true
  | .between s e, t => s ≤ t && t ≤ e
  | .gte s, t => s ≤ t
  | .lte e, t => t ≤ e

/-! ## Device listing (`SensorDataAccess.get_all_devices`) -/

/-- One scanned row, as projected by the device-listing scan
(`device_id, gateway_id, timestamp, server_timestamp`). -/
structure DeviceItem where
  device_id : String
  gateway_id : String
  timestamp : Int
  server_timestamp : Int
deriving DecidableEq, Repr

/-- One entry of the `devices` dictionary built by the scan loop. -/
structure DeviceSummary where
  device_id : String
  gateway_id : String
  last_seen : Int
  last_seen_server : Int
deriving DecidableEq, Repr

/-- The summary recorded for an item when it wins its device's slot. -/
def summaryOfItem (it : DeviceItem) : DeviceSummary :=
  { device_id := it.device_id, gateway_id := it.gateway_id,
    last_seen := it.timestamp, last_seen_server := it.server_timestamp }

/-- Keyed replacement used by the dict update: the entry whose device id
matches the item is overwritten in place. -/
def replaceSummary (it : DeviceItem) (s0 : DeviceSummary) : DeviceSummary :=
  if s0.device_id = it.device_id then summaryOfItem it else s0

/-- The body of the scan loop: record the item if its device is new, replace
the recorded entry if the item's timestamp is strictly greater, else keep.
The dictionary is an association list in insertion order, replacement keeps
the position, matching Python dict semantics. -/
def updateDevices (acc : List DeviceSummary) (it : DeviceItem) : List DeviceSummary :=
  match acc.find? (fun s => s.device_id = it.device_id) with
  | none => acc ++ [summaryOfItem it]
  | some s =>
      if it.timestamp > s.last_seen then acc.map (replaceSummary it)
      else acc

/-- Processing all items of one scan response. -/
def reduceDevices (acc : List DeviceSummary) (items : List DeviceItem) : List DeviceSummary :=
  items.foldl updateDevices acc

/-- The `while 'LastEvaluatedKey' in response and len(devices) < limit` loop:
each further page is fetched only while the device count is below the cap. -/
def processPages (limit : Nat) : List DeviceSummary → List (List DeviceItem) → List DeviceSummary
  | acc, [] => acc
  | acc, p :: rest =>
      if acc.length < limit then processPages limit (reduceDevices acc p) rest
      else acc

/-- `get_all_devices`: the first scan response is always processed, further
pages go through the capped loop, and the result is sorted by `last_seen`
descending. -/
def getAllDevices (pages : List (List DeviceItem)) (limit : Nat) : List DeviceSummary :=
  match pages with
  | [] => []
  | p :: rest =>
      (processPages limit (reduceDevices [] p) rest).mergeSort
        (fun a b => b.last_seen ≤ a.last_seen)

/-- The spec's device-listing example: three readings for one device at
timestamps 10 < 20 < 30 and one reading for a second device at 40, in a
single scan page. -/
def examplePages : List (List DeviceItem) :=
  [[{ device_id := "AABBCCDDEE01", gateway_id := "AA:BB:CC:DD:EE:FF",
      timestamp := 10, server_timestamp := 110 },
    { device_id := "AABBCCDDEE01", gateway_id := "AA:BB:CC:DD:EE:FF",
      timestamp := 20, server_timestamp := 120 },
    { device_id := "AABBCCDDEE01", gateway_id := "AA:BB:CC:DD:EE:FF",
      timestamp := 30, server_timestamp := 130 },
    { device_id := "AABBCCDDEE02", gateway_id := "AA:BB:CC:DD:EE:FF",
      timestamp := 40, server_timestamp := 140 }]]

/-- The scan invariant of the device dictionary: device ids are unique, the
dictionary covers exactly the devices of the processed items, every entry is
witnessed by a processed item carrying its fields, and no processed item of
the same device has a later timestamp. -/
def DevInv (acc : List DeviceSummary) (processed : List DeviceItem) : Prop :=
  (acc.map (fun s => s.device_id)).Nodup ∧
  (∀ d : String, (∃ s ∈ acc, s.device_id = d) ↔ (∃ it ∈ processed, it.device_id = d)) ∧
  (∀ s ∈ acc, ∃ it ∈ processed,
    it.device_id = s.device_id ∧ it.timestamp = s.last_seen ∧
    it.gateway_id = s.gateway_id ∧ it.server_timestamp = s.last_seen_server) ∧
  (∀ s ∈ acc, ∀ it ∈ processed, it.device_id = s.device_id → it.timestamp ≤ s.last_seen)

/-! ## Lemmas about the circuit breaker -/

theorem recordFailure_failure_count (cb : CircuitBreaker) (t : Int) :
    (cb.recordFailure t).failure_count = cb.failure_count + 1 := rfl

theorem recordFailure_last (cb : CircuitBreaker) (t : Int) :
    (cb.recordFailure t).last_failure_time = some t := rfl

theorem recordFailure_threshold (cb : CircuitBreaker) (t : Int) :
    (cb.recordFailure t).failure_threshold = cb.failure_threshold := rfl

theorem recordFailure_timeout (cb : CircuitBreaker) (t : Int) :
    (cb.recordFailure t).recovery_timeout = cb.recovery_timeout := rfl

theorem recordFailure_state (cb : CircuitBreaker) (t : Int)
    (h : cb.state = (if cb.failure_threshold ≤ cb.failure_count then BState.OPEN else BState.CLOSED)) :
    (cb.recordFailure t).state =
      (if cb.failure_threshold ≤ cb.failure_count + 1 then BState.OPEN else BState.CLOSED) := by
  unfold CircuitBreaker.recordFailure
  by_cases hth : cb.failure_threshold ≤ cb.failure_count + 1
  · simp [hth]
  · have hlt : ¬ cb.failure_threshold ≤ cb.failure_count := by omega
    simp [hth, h, hlt]

/-- Behaviour of a run of consecutive recorded failures, starting from any
breaker whose state agrees with its failure count (true of the initial
breaker and preserved by every failure). -/
theorem recordFailures_spec (ts : List Int) : ∀ cb : CircuitBreaker,
    cb.state = (if cb.failure_threshold ≤ cb.failure_count then BState.OPEN else BState.CLOSED) →
    (recordFailures cb ts).failure_count = cb.failure_count + ts.length ∧
    (recordFailures cb ts).failure_threshold = cb.failure_threshold ∧
    (recordFailures cb ts).recovery_timeout = cb.recovery_timeout ∧
    (recordFailures cb ts).state =
      (if cb.failure_threshold ≤ cb.failure_count + ts.length then BState.OPEN else BState.CLOSED) := by
  induction ts with
  | nil =>
      intro cb h
      exact ⟨rfl, rfl, rfl, by simpa [recordFailures] using h⟩
  | cons t ts ih =>
      intro cb h
      have hstep := recordFailure_state cb t h
      obtain ⟨h1, h2, h3, h4⟩ := ih (cb.recordFailure t)
        (by rw [hstep, recordFailure_threshold, recordFailure_failure_count])
      have hrun : recordFailures cb (t :: ts) = recordFailures (cb.recordFailure t) ts := rfl
      rw [hrun]
      refine ⟨?_, ?_, ?_, ?_⟩
      · rw [h1, recordFailure_failure_count]
        simp only [List.length_cons]
        omega
      · rw [h2, recordFailure_threshold]
      · rw [h3, recordFailure_timeout]
      · rw [h4, recordFailure_threshold, recordFailure_failure_count]
        simp only [List.length_cons]
        have harith : cb.failure_count + 1 + ts.length = cb.failure_count + (ts.length + 1) := by
          omega
        rw [harith]

/-- C3: the circuit breaker state machine.  From the initial breaker, fewer
than `failure_threshold` consecutive failures leave it CLOSED and callable;
exactly `failure_threshold` failures open it and calls inside the recovery
window are rejected; once the time since the recorded failure instant
exceeds the window the breaker moves to HALF_OPEN and permits the call; a
failure recorded in HALF_OPEN reopens the breaker and re-arms the window so
the next call inside it is rejected again; a recorded success resets the
failure count to zero and returns to CLOSED. -/
theorem circuit_breaker_state_machine (ft rt : Nat) :
    (∀ ts : List Int, ts.length < ft →
      (recordFailures (CircuitBreaker.init ft rt) ts).state = BState.CLOSED ∧
      ∀ now : Int, ((recordFailures (CircuitBreaker.init ft rt) ts).canExecute now).1 = true) ∧
    (∀ ts : List Int, ts.length = ft → 0 < ft →
      (recordFailures (CircuitBreaker.init ft rt) ts).state = BState.OPEN ∧
      ∀ now t : Int,
        (recordFailures (CircuitBreaker.init ft rt) ts).last_failure_time = some t →
        now - t < rt →
        ((recordFailures (CircuitBreaker.init ft rt) ts).canExecute now).1 = false) ∧
    (∀ (cb : CircuitBreaker) (now t : Int), cb.state = BState.OPEN →
      cb.last_failure_time = some t → now - t > cb.recovery_timeout →
      cb.canExecute now = (true, { cb with state := BState.HALF_OPEN })) ∧
    (∀ (cb : CircuitBreaker) (now now2 : Int), cb.state = BState.HALF_OPEN →
      (cb.recordFailure now).state = BState.OPEN ∧
      (cb.recordFailure now).last_failure_time = some now ∧
      (now2 - now < cb.recovery_timeout →
        ((cb.recordFailure now).canExecute now2).1 = false)) ∧
    (∀ cb : CircuitBreaker,
      cb.recordSuccess.failure_count = 0 ∧ cb.recordSuccess.state = BState.CLOSED ∧
      ∀ now : Int, (cb.recordSuccess.canExecute now).1 = true) := by
  have hinit : 0 < ft → (CircuitBreaker.init ft rt).state =
      (if (CircuitBreaker.init ft rt).failure_threshold ≤
          (CircuitBreaker.init ft rt).failure_count then BState.OPEN else BState.CLOSED) := by
    intro hft
    have hn : ¬ ((CircuitBreaker.init ft rt).failure_threshold ≤
        (CircuitBreaker.init ft rt).failure_count) := by
      simp [CircuitBreaker.init]
      omega
    rw [if_neg hn]
    rfl
  refine ⟨?_, ?_, ?_, ?_, ?_⟩
  · intro ts hlen
    have hft : 0 < ft := by omega
    obtain ⟨h1, h2, h3, h4⟩ := recordFailures_spec ts (CircuitBreaker.init ft rt) (hinit hft)
    have hn : ¬ ((CircuitBreaker.init ft rt).failure_threshold ≤
        (CircuitBreaker.init ft rt).failure_count + ts.length) := by
      simp [CircuitBreaker.init]
      omega
    have hst : (recordFailures (CircuitBreaker.init ft rt) ts).state = BState.CLOSED := by
      rw [h4, if_neg hn]
    exact ⟨hst, fun now => by simp [CircuitBreaker.canExecute, hst]⟩
  · intro ts hlen hpos
    obtain ⟨h1, h2, h3, h4⟩ := recordFailures_spec ts (CircuitBreaker.init ft rt) (hinit hpos)
    have hp : (CircuitBreaker.init ft rt).failure_threshold ≤
        (CircuitBreaker.init ft rt).failure_count + ts.length := by
      simp [CircuitBreaker.init]
      omega
    have hst : (recordFailures (CircuitBreaker.init ft rt) ts).state = BState.OPEN := by
      rw [h4, if_pos hp]
    refine ⟨hst, fun now t hlast hwin => ?_⟩
    have hrt : (recordFailures (CircuitBreaker.init ft rt) ts).recovery_timeout = rt := by
      rw [h3]; rfl
    have hlt : ¬ (now - t ≥
        ((recordFailures (CircuitBreaker.init ft rt) ts).recovery_timeout : Int)) := by
      rw [hrt]
      omega
    simp [CircuitBreaker.canExecute, hst, hlast, hlt]
  · intro cb now t hst hlast hwin
    have hge : now - t ≥ (cb.recovery_timeout : Int) := by omega
    simp [CircuitBreaker.canExecute, hst, hlast, hge]
  · intro cb now now2 hst
    have hopen : (cb.recordFailure now).state = BState.OPEN := by
      unfold CircuitBreaker.recordFailure
      by_cases hth : cb.failure_threshold ≤ cb.failure_count + 1 <;> simp [hth, hst]
    refine ⟨hopen, rfl, fun hwin => ?_⟩
    have hlt : ¬ (now2 - now ≥ ((cb.recordFailure now).recovery_timeout : Int)) := by
      rw [recordFailure_timeout]
      omega
    simp [CircuitBreaker.canExecute, hopen, recordFailure_last, hlt]
  · intro cb
    exact ⟨rfl, rfl, fun now => by simp [CircuitBreaker.canExecute, CircuitBreaker.recordSuccess]⟩

/-! ## Lemmas about the retry loop -/

theorem retryLoop_ok (att : Nat → AttemptOutcome) (a d fuel : Nat) (r : Json)
    (h : att a = AttemptOutcome.ok r) :
    retryLoop att a d (fuel + 1) =
      { success := true, response := r, wasForwarded := true,
        attempts := 1, sleeps := [], breakerSuccesses := 1, breakerFailures := 0 } := by
  simp [retryLoop, h]

theorem retryLoop_err_final (att : Nat → AttemptOutcome) (a d fuel : Nat) (r : Json)
    (h : att a = AttemptOutcome.err r)
    (hcond : errorCodeOf r ∉ retryableCodes ∨ a = maxRetries) :
    retryLoop att a d (fuel + 1) =
      { success := false, response := r, wasForwarded := true,
        attempts := 1, sleeps := [], breakerSuccesses := 0, breakerFailures := 1 } := by
  simp [retryLoop, h, hcond]

theorem retryLoop_err_cont (att : Nat → AttemptOutcome) (a d fuel : Nat) (r : Json)
    (h : att a = AttemptOutcome.err r) (hr : errorCodeOf r ∈ retryableCodes)
    (hne : a ≠ maxRetries) :
    retryLoop att a d (fuel + 1) =
      { retryLoop att (a + 1) (d * 2) fuel with
        attempts := (retryLoop att (a + 1) (d * 2) fuel).attempts + 1,
        sleeps := d :: (retryLoop att (a + 1) (d * 2) fuel).sleeps } := by
  have hcond : ¬ (errorCodeOf r ∉ retryableCodes ∨ a = maxRetries) := by
    simp [hr, hne]
  simp [retryLoop, h, hcond]

theorem retryLoop_wasForwarded (att : Nat → AttemptOutcome) :
    ∀ fuel a d, (retryLoop att a d fuel).wasForwarded = true := by
  intro fuel
  induction fuel with
  | zero => intro a d; rfl
  | succ n ih =>
      intro a d
      rcases hatt : att a with r | r | _
      · simp [retryLoop, hatt]
      · by_cases hc : errorCodeOf r ∉ retryableCodes ∨ a = maxRetries
        · simp only [retryLoop, hatt]
          rw [if_pos hc]
        · simp [retryLoop, hatt, hc, ih]
      · by_cases hc : a = maxRetries
        · simp only [retryLoop, hatt]
          rw [if_pos hc]
        · simp [retryLoop, hatt, hc, ih]

theorem retryLoop_attempts_le (att : Nat → AttemptOutcome) :
    ∀ fuel a d, (retryLoop att a d fuel).attempts ≤ fuel := by
  intro fuel
  induction fuel with
  | zero => intro a d; simp [retryLoop]
  | succ n ih =>
      intro a d
      rcases hatt : att a with r | r | _
      · simp [retryLoop, hatt]
      · by_cases hc : errorCodeOf r ∉ retryableCodes ∨ a = maxRetries
        · simp only [retryLoop, hatt]
          rw [if_pos hc]
          simp
        · simp only [retryLoop, hatt, if_neg hc]
          have := ih (a + 1) (d * 2)
          omega
      · by_cases hc : a = maxRetries
        · simp only [retryLoop, hatt]
          rw [if_pos hc]
          simp
        · simp only [retryLoop, hatt, if_neg hc]
          have := ih (a + 1) (d * 2)
          omega

theorem retryLoop_attempts_pos (att : Nat → AttemptOutcome) (fuel a d : Nat)
    (hf : 0 < fuel) : 0 < (retryLoop att a d fuel).attempts := by
  obtain ⟨n, rfl⟩ : ∃ n, fuel = n + 1 := ⟨fuel - 1, by omega⟩
  rcases hatt : att a with r | r | _
  · simp [retryLoop, hatt]
  · by_cases hc : errorCodeOf r ∉ retryableCodes ∨ a = maxRetries
    · simp only [retryLoop, hatt]
      rw [if_pos hc]
      simp
    · simp only [retryLoop, hatt, if_neg hc]
      omega
  · by_cases hc : a = maxRetries
    · simp only [retryLoop, hatt]
      rw [if_pos hc]
      simp
    · simp only [retryLoop, hatt, if_neg hc]
      omega

theorem handleForwarding_runs_loop (env : ForwardEnv) (hc : env.configFault = false)
    (he : env.forwardingEnabled = true) (hcan : (env.breaker.canExecute env.now).1 = true) :
    handleForwarding env = retryLoop env.att 0 1 (maxRetries + 1) := by
  simp [handleForwarding, hc, he, hcan]

/-- C4: the retry policy.  When the breaker permits the call the loop makes
at most 4 attempts; four consecutive retryable failures (such as
TIMEOUT_ERROR) give exactly 4 attempts with sleeps of 1 s, 2 s and 4 s,
record one breaker failure and return the last error; a non-retryable code
on the first attempt gives exactly 1 attempt, one recorded breaker failure
and the error returned; a successful first attempt records one breaker
success and returns the vendor response with no further attempts. -/
theorem retry_loop_policy :
    (∀ env : ForwardEnv, env.configFault = false → env.forwardingEnabled = true →
      (env.breaker.canExecute env.now).1 = true →
      handleForwarding env = retryLoop env.att 0 1 (maxRetries + 1)) ∧
    (∀ att : Nat → AttemptOutcome,
      (∀ i, i < maxRetries + 1 → isRetryableErr (att i) = true) →
      retryLoop att 0 1 (maxRetries + 1) =
        { success := false, response := errRespOf (att maxRetries), wasForwarded := true,
          attempts := 4, sleeps := [1, 2, 4], breakerSuccesses := 0, breakerFailures := 1 }) ∧
    (∀ (att : Nat → AttemptOutcome) (r : Json), att 0 = AttemptOutcome.err r →
      errorCodeOf r ∉ retryableCodes →
      retryLoop att 0 1 (maxRetries + 1) =
        { success := false, response := r, wasForwarded := true,
          attempts := 1, sleeps := [], breakerSuccesses := 0, breakerFailures := 1 }) ∧
    (∀ (att : Nat → AttemptOutcome) (r : Json), att 0 = AttemptOutcome.ok r →
      retryLoop att 0 1 (maxRetries + 1) =
        { success := true, response := r, wasForwarded := true,
          attempts := 1, sleeps := [], breakerSuccesses := 1, breakerFailures := 0 }) ∧
    (∀ (att : Nat → AttemptOutcome) (a d fuel : Nat),
      (retryLoop att a d fuel).attempts ≤ fuel) := by
  refine ⟨handleForwarding_runs_loop, ?_, ?_, ?_, ?_⟩
  · intro att h
    have h0 := h 0 (by decide)
    have h1 := h 1 (by decide)
    have h2 := h 2 (by decide)
    have h3 := h 3 (by decide)
    rcases ha0 : att 0 with r0 | r0 | _ <;> rw [ha0] at h0 <;>
      simp [isRetryableErr] at h0
    rcases ha1 : att 1 with r1 | r1 | _ <;> rw [ha1] at h1 <;>
      simp [isRetryableErr] at h1
    rcases ha2 : att 2 with r2 | r2 | _ <;> rw [ha2] at h2 <;>
      simp [isRetryableErr] at h2
    rcases ha3 : att 3 with r3 | r3 | _ <;> rw [ha3] at h3 <;>
      simp [isRetryableErr] at h3
    have e3 : retryLoop att 3 8 1 =
        { success := false, response := r3, wasForwarded := true,
          attempts := 1, sleeps := [], breakerSuccesses := 0, breakerFailures := 1 } :=
      retryLoop_err_final att 3 8 0 r3 ha3 (Or.inr rfl)
    have e2 : retryLoop att 2 4 2 =
        { retryLoop att 3 8 1 with
          attempts := (retryLoop att 3 8 1).attempts + 1,
          sleeps := 4 :: (retryLoop att 3 8 1).sleeps } :=
      retryLoop_err_cont att 2 4 1 r2 ha2 h2 (by decide)
    have e1 : retryLoop att 1 2 3 =
        { retryLoop att 2 4 2 with
          attempts := (retryLoop att 2 4 2).attempts + 1,
          sleeps := 2 :: (retryLoop att 2 4 2).sleeps } :=
      retryLoop_err_cont att 1 2 2 r1 ha1 h1 (by decide)
    have e0 : retryLoop att 0 1 4 =
        { retryLoop att 1 2 3 with
          attempts := (retryLoop att 1 2 3).attempts + 1,
          sleeps := 1 :: (retryLoop att 1 2 3).sleeps } :=
      retryLoop_err_cont att 0 1 3 r0 ha0 h0 (by decide)
    have hm : maxRetries = 3 := rfl
    show retryLoop att 0 1 4 = _
    rw [e0, e1, e2, e3, hm, ha3]
    rfl
  · intro att r h hnr
    exact retryLoop_err_final att 0 1 maxRetries r h (Or.inl hnr)
  · intro att r h
    exact retryLoop_ok att 0 1 maxRetries r h
  · exact fun att a d fuel => retryLoop_attempts_le att fuel a d

/-- Witness for C4: four timeouts give 4 attempts and sleeps 1 s, 2 s, 4 s; a
first-attempt VALIDATION_ERROR gives 1 attempt; a first-attempt success
gives 1 attempt and one recorded breaker success. -/
theorem retry_loop_policy_witness :
    handleForwarding envAllTimeout = retryLoop envAllTimeout.att 0 1 (maxRetries + 1) ∧
    retryLoop envAllTimeout.att 0 1 (maxRetries + 1) =
      { success := false, response := errRespOf (envAllTimeout.att maxRetries),
        wasForwarded := true, attempts := 4, sleeps := [1, 2, 4],
        breakerSuccesses := 0, breakerFailures := 1 } ∧
    retryLoop (fun _ => AttemptOutcome.err validationErrResponse) 0 1 (maxRetries + 1) =
      { success := false, response := validationErrResponse, wasForwarded := true,
        attempts := 1, sleeps := [], breakerSuccesses := 0, breakerFailures := 1 } ∧
    retryLoop (fun _ => AttemptOutcome.ok vendorOkResponse) 0 1 (maxRetries + 1) =
      { success := true, response := vendorOkResponse, wasForwarded := true,
        attempts := 1, sleeps := [], breakerSuccesses := 1, breakerFailures := 0 } := by
  obtain ⟨p1, p2, p3, p4, p5⟩ := retry_loop_policy
  refine ⟨p1 envAllTimeout rfl rfl (by decide), ?_, ?_, ?_⟩
  · have hyp : ∀ i, i < maxRetries + 1 → isRetryableErr (envAllTimeout.att i) = true :=
      fun _ _ => rfl
    exact p2 envAllTimeout.att hyp
  · exact p3 (fun _ => AttemptOutcome.err validationErrResponse) validationErrResponse rfl
      (by decide)
  · exact p4 (fun _ => AttemptOutcome.ok vendorOkResponse) vendorOkResponse rfl

/-- C5 counterexample: with the circuit breaker OPEN and inside its recovery
window, `handle_ruuvi_cloud_forwarding` makes no client call yet returns the
third tuple element as `True`, so the flag is not true exactly when a relay
attempt occurred and does not distinguish "breaker open, never tried" from
"tried and failed". -/
theorem forwarding_attempt_flag_cex :
    ¬ (((handleForwarding envBreakerOpen).wasForwarded = true) ↔
        (0 < (handleForwarding envBreakerOpen).attempts)) ∧
    (handleForwarding envBreakerOpen).wasForwarded = true ∧
    (handleForwarding envBreakerOpen).attempts = 0 := by
  refine ⟨?_, by decide, by decide⟩
  intro hiff
  have h1 : (handleForwarding envBreakerOpen).wasForwarded = true := by decide
  have h2 : (handleForwarding envBreakerOpen).attempts = 0 := by decide
  have := hiff.mp h1
  omega

/-- C5 (amended): the forwarding routine always returns a structured
(success, payload, attempted) triple — the flag is false exactly when
forwarding was skipped because the toggle was disabled or the configuration
read faulted; in the breaker-open path no client call is attempted but the
flag is nonetheless true, so breaker-open is reported like a tried-and-failed
call. -/
theorem forwarding_attempt_flag (env : ForwardEnv) :
    (handleForwarding env).wasForwarded = (!env.configFault && env.forwardingEnabled) ∧
    ((0 < (handleForwarding env).attempts) ↔
      (!env.configFault && env.forwardingEnabled && (env.breaker.canExecute env.now).1) = true) := by
  by_cases hc : env.configFault = true
  · simp [handleForwarding, hc]
  · have hc2 : env.configFault = false := by simpa using hc
    by_cases he : env.forwardingEnabled = true
    · by_cases hcan : (env.breaker.canExecute env.now).1 = true
      · have hrun : handleForwarding env = retryLoop env.att 0 1 (maxRetries + 1) :=
          handleForwarding_runs_loop env hc2 he hcan
        refine ⟨?_, ?_⟩
        · rw [hrun, retryLoop_wasForwarded, hc2, he]
          rfl
        · rw [hrun, hc2, he, hcan]
          exact iff_of_true (retryLoop_attempts_pos env.att (maxRetries + 1) 0 1 (by decide))
            (by decide)
      · have hcan2 : (env.breaker.canExecute env.now).1 = false := by
          simpa using hcan
        simp [handleForwarding, hc2, he, hcan2]
    · have he2 : env.forwardingEnabled = false := by simpa using he
      simp [handleForwarding, hc2, he2]

/-- Witness for C5 (amended) at the breaker-open environment. -/
theorem forwarding_attempt_flag_witness :
    (handleForwarding envBreakerOpen).wasForwarded =
      (!envBreakerOpen.configFault && envBreakerOpen.forwardingEnabled) ∧
    ((0 < (handleForwarding envBreakerOpen).attempts) ↔
      (!envBreakerOpen.configFault && envBreakerOpen.forwardingEnabled &&
        (envBreakerOpen.breaker.canExecute envBreakerOpen.now).1) = true) :=
  forwarding_attempt_flag envBreakerOpen

/-- C1: for a valid batch the handler returns HTTP 200 whatever the
forwarding outcome — the vendor response verbatim when forwarding
succeeded, the synthesized local-success envelope on any forwarding
failure (breaker open, retries exhausted, transport exception) and on
a configuration-read fault; an invalid batch is the 400 validation
failure path. -/
theorem ingestion_never_fails_upstream (b : Batch) (env : ForwardEnv) :
    (lambdaHandler true b env).status = 200 ∧
    (lambdaHandler true b env).body =
      (if (handleForwarding env).success then (handleForwarding env).response
       else localSuccessResponse) ∧
    ((handleForwarding env).success = false →
      (lambdaHandler true b env).body = localSuccessResponse) ∧
    (env.configFault = true → (lambdaHandler true b env).body = localSuccessResponse) ∧
    (lambdaHandler false b env).status = 400 := by
  refine ⟨rfl, ?_, ?_, ?_, rfl⟩
  · simp [lambdaHandler]
  · intro hf
    simp [lambdaHandler, hf]
  · intro hc
    simp [lambdaHandler, handleForwarding, hc]

/-- Witness for C1: breaker-open forwarding failure still yields HTTP 200
with the local-success body, and a vendor success is returned verbatim. -/
theorem ingestion_never_fails_upstream_witness :
    (lambdaHandler true batchOneTag envBreakerOpen).status = 200 ∧
    (lambdaHandler true batchOneTag envBreakerOpen).body = localSuccessResponse ∧
    (lambdaHandler true batchOneTag envVendorOk).status = 200 ∧
    (lambdaHandler true batchOneTag envVendorOk).body = vendorOkResponse := by
  obtain ⟨w1, w2, w3, w4, w5⟩ := ingestion_never_fails_upstream batchOneTag envBreakerOpen
  obtain ⟨u1, u2, u3, u4, u5⟩ := ingestion_never_fails_upstream batchOneTag envVendorOk
  refine ⟨w1, w3 (by decide), u1, ?_⟩
  rw [u2]
  have hs : (handleForwarding envVendorOk).success = true := by decide
  rw [if_pos hs]
  rfl

/-- C2 counterexample: a forward that occurred and succeeded, but whose
vendor 200-response lacks a `data` member: the batch is stored with no
reading carrying the vendor response, refuting the claimed iff. -/
theorem vendor_response_attachment_cex :
    (handleForwarding envVendorNoData).wasForwarded = true ∧
    (handleForwarding envVendorNoData).success = true ∧
    (lambdaHandler true batchOneTag envVendorNoData).stored.length = 1 ∧
    (lambdaHandler true batchOneTag envVendorNoData).stored.all
      (fun it => it.ruuvi_cloud_response.isNone) = true := by
  refine ⟨by decide, by decide, by decide, by decide⟩

/-- C2 (amended): a stored reading carries the vendor-response field iff the
forwarding attempt occurred, succeeded, and its response is a truthy success
envelope (`result` equal to `"success"` with a `data` member); in that case
the attached value is the vendor response itself, and when forwarding was
skipped or failed no stored reading has the field. -/
theorem vendor_response_attachment (b : Batch) (env : ForwardEnv) (it : StoredItem)
    (hit : it ∈ (lambdaHandler true b env).stored) :
    it.ruuvi_cloud_response =
      (if (handleForwarding env).wasForwarded && (handleForwarding env).success &&
          attachCondition (some (handleForwarding env).response)
       then some (handleForwarding env).response else none) ∧
    (((handleForwarding env).wasForwarded = false ∨ (handleForwarding env).success = false) →
      it.ruuvi_cloud_response = none) := by
  have hstored : (lambdaHandler true b env).stored =
      storeItems b (if (handleForwarding env).wasForwarded && (handleForwarding env).success
        then some (handleForwarding env).response else none) := rfl
  rw [hstored] at hit
  simp only [storeItems, List.mem_map] at hit
  obtain ⟨kv, _, hkv⟩ := hit
  have hresp : it.ruuvi_cloud_response =
      (if attachCondition (if (handleForwarding env).wasForwarded &&
          (handleForwarding env).success
        then some (handleForwarding env).response else none)
       then (if (handleForwarding env).wasForwarded && (handleForwarding env).success
        then some (handleForwarding env).response else none) else none) := by
    rw [← hkv]
  by_cases hfw : ((handleForwarding env).wasForwarded && (handleForwarding env).success) = true
  · have hff : (handleForwarding env).wasForwarded = true ∧
        (handleForwarding env).success = true := by
      simpa [Bool.and_eq_true] using hfw
    constructor
    · rw [hresp]
      simp [hfw]
    · intro hor
      rcases hor with h | h
      · rw [hff.1] at h
        exact absurd h (by simp)
      · rw [hff.2] at h
        exact absurd h (by simp)
  · have hfw2 : ((handleForwarding env).wasForwarded &&
        (handleForwarding env).success) = false := by
      simpa using hfw
    constructor
    · rw [hresp]
      simp [hfw2, attachCondition]
    · intro _
      rw [hresp]
      simp [hfw2, attachCondition]

/-- Witness for C2 (amended): with the documented vendor success envelope the
stored reading of the one-tag batch carries the vendor response. -/
theorem vendor_response_attachment_witness :
    storedItemVendorOk.ruuvi_cloud_response =
      (if (handleForwarding envVendorOk).wasForwarded && (handleForwarding envVendorOk).success &&
          attachCondition (some (handleForwarding envVendorOk).response)
       then some (handleForwarding envVendorOk).response else none) := by
  have hmem : storedItemVendorOk ∈ (lambdaHandler true batchOneTag envVendorOk).stored :=
    List.Mem.head _
  exact (vendor_response_attachment batchOneTag envVendorOk storedItemVendorOk hmem).1

/-- Witness for C3 at the default thresholds (5 failures, 60 s window). -/
theorem circuit_breaker_state_machine_witness :
    (recordFailures (CircuitBreaker.init 5 60) [10, 11, 12, 13]).state = BState.CLOSED ∧
    (recordFailures (CircuitBreaker.init 5 60) [10, 11, 12, 13, 14]).state = BState.OPEN ∧
    ((recordFailures (CircuitBreaker.init 5 60) [10, 11, 12, 13, 14]).canExecute 40).1 = false ∧
    (let cbOpen : CircuitBreaker :=
      { failure_threshold := 5, recovery_timeout := 60, failure_count := 5,
        last_failure_time := some 14, state := BState.OPEN }
     cbOpen.canExecute 100 = (true, { cbOpen with state := BState.HALF_OPEN }) ∧
     (cbOpen.recordSuccess.failure_count = 0 ∧ cbOpen.recordSuccess.state = BState.CLOSED) ∧
     ({ cbOpen with state := BState.HALF_OPEN }.recordFailure 100).state = BState.OPEN ∧
     (({ cbOpen with state := BState.HALF_OPEN }.recordFailure 100).canExecute 110).1 = false) := by
  obtain ⟨p1, p2, p3, p4, p5⟩ := circuit_breaker_state_machine 5 60
  refine ⟨(p1 [10, 11, 12, 13] (by decide)).1, (p2 [10, 11, 12, 13, 14] (by decide) (by decide)).1,
    (p2 [10, 11, 12, 13, 14] (by decide) (by decide)).2 40 14 (by decide) (by decide), ?_, ?_, ?_, ?_⟩
  · exact p3 _ 100 14 (by decide) (by decide) (by decide)
  · exact ⟨(p5 _).1, (p5 _).2.1⟩
  · exact (p4 _ 100 110 (by decide)).1
  · exact (p4 _ 100 110 (by decide)).2.2 (by decide)

/-! ## Configuration store theorems -/

theorem lookup_putAssoc {α : Type} (l : List (String × α)) (k : String) (v : α) :
    lookupAssoc (putAssoc l k v) k = some v := by
  induction l with
  | nil => simp [putAssoc, lookupAssoc]
  | cons kv rest ih =>
      by_cases h : kv.1 = k
      · simp [putAssoc, lookupAssoc, h]
      · obtain ⟨k0, v0⟩ := kv
        simp only at h
        simp only [putAssoc, if_neg h]
        simpa [lookupAssoc, List.find?, h] using ih

/-- C7: configuration `set` is validating, atomic on rejection and
write-through on success.  Setting `data_retention_days` to 0 or 5000 is
rejected: `set` returns false and the whole state — store and cache — is
untouched.  Setting it to 30 succeeds, persists the serialized value with
the update time and updater identity, and a `get` at any instant still
inside the cache TTL returns 30 from the cache, without any read-through. -/
theorem config_set_validation (st : ConfigState) (now now2 : Int) (who : String) :
    setConfig st now "data_retention_days" (PyVal.pyint 0) who = (false, st) ∧
    setConfig st now "data_retention_days" (PyVal.pyint 5000) who = (false, st) ∧
    (setConfig st now "data_retention_days" (PyVal.pyint 30) who).1 = true ∧
    lookupAssoc (setConfig st now "data_retention_days" (PyVal.pyint 30) who).2.store
        "data_retention_days" =
      some { config_value := "30", last_updated := now, updated_by := who } ∧
    (now2 - now < (st.cache_ttl_seconds : Int) →
      (getConfig (setConfig st now "data_retention_days" (PyVal.pyint 30) who).2 now2
        "data_retention_days" none).1 = some (PyVal.pyint 30)) := by
  have hv0 : validateConfig "data_retention_days" (PyVal.pyint 0) = false := by decide
  have hv5000 : validateConfig "data_retention_days" (PyVal.pyint 5000) = false := by decide
  have hv30 : validateConfig "data_retention_days" (PyVal.pyint 30) = true := by decide
  refine ⟨by simp [setConfig, hv0], by simp [setConfig, hv5000], by simp [setConfig, hv30],
    ?_, ?_⟩
  · simp only [setConfig, hv30, Bool.not_true, Bool.false_eq_true, if_false]
    exact lookup_putAssoc st.store "data_retention_days" _
  · intro hwin
    have hcache :
        lookupAssoc (setConfig st now "data_retention_days" (PyVal.pyint 30) who).2.cache
          "data_retention_days" =
        some { value := PyVal.pyint 30, timestamp := now } := by
      simp only [setConfig, hv30, Bool.not_true, Bool.false_eq_true, if_false]
      exact lookup_putAssoc st.cache "data_retention_days" _
    have httl : (setConfig st now "data_retention_days" (PyVal.pyint 30) who).2.cache_ttl_seconds
        = st.cache_ttl_seconds := by
      simp [setConfig, hv30]
    simp [getConfig, hcache, httl, hwin]

/-- Witness for C7 on an empty configuration state at time 1000. -/
theorem config_set_validation_witness :
    setConfig { store := [], cache := [], cache_ttl_seconds := 300 } 1000
        "data_retention_days" (PyVal.pyint 0) "admin" =
      (false, { store := [], cache := [], cache_ttl_seconds := 300 }) ∧
    setConfig { store := [], cache := [], cache_ttl_seconds := 300 } 1000
        "data_retention_days" (PyVal.pyint 5000) "admin" =
      (false, { store := [], cache := [], cache_ttl_seconds := 300 }) ∧
    (getConfig (setConfig { store := [], cache := [], cache_ttl_seconds := 300 } 1000
        "data_retention_days" (PyVal.pyint 30) "admin").2 1000
        "data_retention_days" none).1 = some (PyVal.pyint 30) := by
  obtain ⟨w1, w2, _, _, w5⟩ :=
    config_set_validation { store := [], cache := [], cache_ttl_seconds := 300 } 1000 1000 "admin"
  exact ⟨w1, w2, w5 (by decide)⟩

/-! ## Time-bound truthiness theorems -/

/-- C10: in the historical and gateway query condition builder, a bound of 0
is treated as absent.  With `end_time = 0` and no `start_time` the query
carries no timestamp condition at all, so a reading of any timestamp
satisfies it; with `start_time = 0` and a nonzero `end_time` the range
degrades to the one-sided bound `timestamp ≤ end_time`. -/
theorem zero_time_bound_is_absent :
    buildTimeCondition none (some 0) = TimeCond.noBound ∧
    (∀ t : Int, (buildTimeCondition none (some 0)).holds t = true) ∧
    (∀ e : Int, e ≠ 0 → buildTimeCondition (some 0) (some e) = TimeCond.lte e) ∧
    (∀ s : Int, s ≠ 0 → buildTimeCondition (some s) (some 0) = TimeCond.gte s) := by
  refine ⟨rfl, fun t => rfl, ?_, ?_⟩
  · intro e he
    simp [buildTimeCondition, intTruthy, he]
  · intro s hs
    simp [buildTimeCondition, intTruthy, hs]

/-- Witness for C10 with `end_time = 500` and a sample timestamp 999999. -/
theorem zero_time_bound_is_absent_witness :
    (buildTimeCondition none (some 0)).holds 999999 = true ∧
    buildTimeCondition (some 0) (some 500) = TimeCond.lte 500 := by
  obtain ⟨_, w2, w3, _⟩ := zero_time_bound_is_absent
  exact ⟨w2 999999, w3 500 (by decide)⟩

/-! ## Device listing theorems -/

theorem replaceSummary_device_id (it : DeviceItem) (s0 : DeviceSummary) :
    (replaceSummary it s0).device_id = s0.device_id := by
  unfold replaceSummary
  split
  · simp [summaryOfItem, *]
  · rfl

theorem exists_id_iff_mem_map (l : List DeviceSummary) (d : String) :
    (∃ s ∈ l, s.device_id = d) ↔ d ∈ l.map (fun s => s.device_id) := by
  simp [List.mem_map]

theorem updateDevices_inv (acc : List DeviceSummary) (processed : List DeviceItem)
    (it : DeviceItem) (h : DevInv acc processed) :
    DevInv (updateDevices acc it) (processed ++ [it]) := by
  obtain ⟨h1, h2, h3, h4⟩ := h
  cases hfind : acc.find? (fun s => s.device_id = it.device_id) with
  | none =>
      have hu : updateDevices acc it = acc ++ [summaryOfItem it] := by
        unfold updateDevices
        rw [hfind]
      rw [hu]
      have hnone : ∀ s ∈ acc, ¬ s.device_id = it.device_id := by
        intro s hs
        have := List.find?_eq_none.mp hfind s hs
        simpa using this
      refine ⟨?_, ?_, ?_, ?_⟩
      · rw [List.map_append, List.nodup_append]
        refine ⟨h1, by simp, ?_⟩
        intro x hx hx2
        simp [summaryOfItem] at hx2
        obtain ⟨s, hs, hseq⟩ := List.mem_map.mp hx
        exact hnone s hs (by rw [hseq, hx2])
      · intro d
        constructor
        · rintro ⟨s, hs, rfl⟩
          rw [List.mem_append] at hs
          rcases hs with hs | hs
          · obtain ⟨it2, hit2, hid⟩ := (h2 s.device_id).mp ⟨s, hs, rfl⟩
            exact ⟨it2, List.mem_append_left _ hit2, hid⟩
          · simp only [List.mem_singleton] at hs
            refine ⟨it, by simp, ?_⟩
            rw [hs]
            rfl
        · rintro ⟨it2, hit2, rfl⟩
          rw [List.mem_append] at hit2
          rcases hit2 with hit2 | hit2
          · obtain ⟨s, hs, hid⟩ := (h2 it2.device_id).mpr ⟨it2, hit2, rfl⟩
            exact ⟨s, List.mem_append_left _ hs, hid⟩
          · simp only [List.mem_singleton] at hit2
            refine ⟨summaryOfItem it, by simp, ?_⟩
            rw [hit2]
            rfl
      · intro s hs
        rw [List.mem_append] at hs
        rcases hs with hs | hs
        · obtain ⟨it2, hit2, hp⟩ := h3 s hs
          exact ⟨it2, List.mem_append_left _ hit2, hp⟩
        · simp only [List.mem_singleton] at hs
          refine ⟨it, by simp, ?_⟩
          rw [hs]
          exact ⟨rfl, rfl, rfl, rfl⟩
      · intro s hs it2 hit2 hid
        rw [List.mem_append] at hs hit2
        rcases hs with hs | hs
        · rcases hit2 with hit2 | hit2
          · exact h4 s hs it2 hit2 hid
          · simp only [List.mem_singleton] at hit2
            have : s.device_id = it.device_id := by rw [← hid, hit2]
            exact absurd this (hnone s hs)
        · simp only [List.mem_singleton] at hs
          rcases hit2 with hit2 | hit2
          · obtain ⟨s2, hs2, hid2⟩ := (h2 it2.device_id).mpr ⟨it2, hit2, rfl⟩
            have : s2.device_id = it.device_id := by
              rw [hid2, hid, hs]
              rfl
            exact absurd this (hnone s2 hs2)
          · simp only [List.mem_singleton] at hit2
            rw [hs, hit2]
            simp [summaryOfItem]
  | some s₀ =>
      have hs₀mem : s₀ ∈ acc := List.mem_of_find?_eq_some hfind
      have hs₀id : s₀.device_id = it.device_id := by
        have := List.find?_some hfind
        simpa using this
      have hinj := List.inj_on_of_nodup_map h1
      have hu : updateDevices acc it =
          (if it.timestamp > s₀.last_seen then acc.map (replaceSummary it) else acc) := by
        unfold updateDevices
        rw [hfind]
      by_cases hgt : it.timestamp > s₀.last_seen
      · rw [hu, if_pos hgt]
        have hids : (acc.map (replaceSummary it)).map (fun s => s.device_id) =
            acc.map (fun s => s.device_id) := by
          rw [List.map_map]
          apply List.map_congr_left
          intro s _
          exact replaceSummary_device_id it s
        refine ⟨by rw [hids]; exact h1, ?_, ?_, ?_⟩
        · intro d
          rw [exists_id_iff_mem_map, hids, ← exists_id_iff_mem_map]
          constructor
          · intro hex
            obtain ⟨it2, hit2, hid⟩ := (h2 d).mp hex
            exact ⟨it2, List.mem_append_left _ hit2, hid⟩
          · rintro ⟨it2, hit2, rfl⟩
            rw [List.mem_append] at hit2
            rcases hit2 with hit2 | hit2
            · exact (h2 it2.device_id).mpr ⟨it2, hit2, rfl⟩
            · simp only [List.mem_singleton] at hit2
              refine ⟨s₀, hs₀mem, ?_⟩
              rw [hs₀id, hit2]
        · intro s hsmem
          obtain ⟨s1, hs1, rfl⟩ := List.mem_map.mp hsmem
          by_cases hh : s1.device_id = it.device_id
          · have hfs : replaceSummary it s1 = summaryOfItem it := by
              simp [replaceSummary, hh]
            rw [hfs]
            exact ⟨it, by simp, rfl, rfl, rfl, rfl⟩
          · have hfs : replaceSummary it s1 = s1 := by
              simp [replaceSummary, hh]
            rw [hfs]
            obtain ⟨it2, hit2, hp⟩ := h3 s1 hs1
            exact ⟨it2, List.mem_append_left _ hit2, hp⟩
        · intro s hsmem it2 hit2 hid
          obtain ⟨s1, hs1, rfl⟩ := List.mem_map.mp hsmem
          rw [List.mem_append] at hit2
          by_cases hh : s1.device_id = it.device_id
          · have hfs : replaceSummary it s1 = summaryOfItem it := by
              simp [replaceSummary, hh]
            rw [hfs] at hid ⊢
            rcases hit2 with hit2 | hit2
            · have hid2 : it2.device_id = s₀.device_id := by
                rw [hs₀id]
                exact hid
              have hb := h4 s₀ hs₀mem it2 hit2 hid2
              show it2.timestamp ≤ it.timestamp
              omega
            · simp only [List.mem_singleton] at hit2
              rw [hit2]
              exact le_refl it.timestamp
          · have hfs : replaceSummary it s1 = s1 := by
              simp [replaceSummary, hh]
            rw [hfs] at hid ⊢
            rcases hit2 with hit2 | hit2
            · exact h4 s1 hs1 it2 hit2 hid
            · simp only [List.mem_singleton] at hit2
              have : s1.device_id = it.device_id := by rw [← hid, hit2]
              exact absurd this hh
      · rw [hu, if_neg hgt]
        refine ⟨h1, ?_, ?_, ?_⟩
        · intro d
          constructor
          · intro hex
            obtain ⟨it2, hit2, hid⟩ := (h2 d).mp hex
            exact ⟨it2, List.mem_append_left _ hit2, hid⟩
          · rintro ⟨it2, hit2, rfl⟩
            rw [List.mem_append] at hit2
            rcases hit2 with hit2 | hit2
            · exact (h2 it2.device_id).mpr ⟨it2, hit2, rfl⟩
            · simp only [List.mem_singleton] at hit2
              refine ⟨s₀, hs₀mem, ?_⟩
              rw [hs₀id, hit2]
        · intro s hs
          obtain ⟨it2, hit2, hp⟩ := h3 s hs
          exact ⟨it2, List.mem_append_left _ hit2, hp⟩
        · intro s hs it2 hit2 hid
          rw [List.mem_append] at hit2
          rcases hit2 with hit2 | hit2
          · exact h4 s hs it2 hit2 hid
          · simp only [List.mem_singleton] at hit2
            have hss : s = s₀ := by
              apply hinj hs hs₀mem
              rw [hs₀id, ← hid, hit2]
            rw [hss, hit2] at hid ⊢
            omega

theorem reduceDevices_inv (items : List DeviceItem) :
    ∀ (acc : List DeviceSummary) (processed : List DeviceItem),
    DevInv acc processed → DevInv (reduceDevices acc items) (processed ++ items) := by
  induction items with
  | nil =>
      intro acc processed h
      simpa [reduceDevices] using h
  | cons it rest ih =>
      intro acc processed h
      have hstep := updateDevices_inv acc processed it h
      have := ih (updateDevices acc it) (processed ++ [it]) hstep
      simpa [reduceDevices, List.append_assoc] using this

theorem reduceDevices_length_le (items : List DeviceItem) :
    ∀ acc : List DeviceSummary,
    (reduceDevices acc items).length ≤ acc.length + items.length := by
  induction items with
  | nil => intro acc; simp [reduceDevices]
  | cons it rest ih =>
      intro acc
      have hstep : (updateDevices acc it).length ≤ acc.length + 1 := by
        cases hfind : acc.find? (fun s => s.device_id = it.device_id) with
        | none =>
            have hu : updateDevices acc it = acc ++ [summaryOfItem it] := by
              unfold updateDevices
              rw [hfind]
            rw [hu]
            simp
        | some s₀ =>
            have hu : updateDevices acc it =
                (if it.timestamp > s₀.last_seen then acc.map (replaceSummary it) else acc) := by
              unfold updateDevices
              rw [hfind]
            rw [hu]
            split
            · simp only [List.length_map]
              omega
            · omega
      have := ih (updateDevices acc it)
      have hrun : reduceDevices acc (it :: rest) = reduceDevices (updateDevices acc it) rest :=
        rfl
      rw [hrun]
      simp only [List.length_cons]
      omega

theorem processPages_all (limit : Nat) :
    ∀ (pages : List (List DeviceItem)) (acc : List DeviceSummary),
    acc.length + pages.flatten.length < limit →
    processPages limit acc pages = reduceDevices acc pages.flatten := by
  intro pages
  induction pages with
  | nil =>
      intro acc _
      rfl
  | cons p rest ih =>
      intro acc hlen
      simp only [List.flatten_cons, List.length_append] at hlen
      have hgate : acc.length < limit := by omega
      have hnext : (reduceDevices acc p).length + rest.flatten.length < limit := by
        have := reduceDevices_length_le p acc
        omega
      show processPages limit acc (p :: rest) = _
      rw [processPages, if_pos hgate, ih (reduceDevices acc p) hnext]
      rw [List.flatten_cons, reduceDevices, reduceDevices, reduceDevices, List.foldl_append]

/-- C9: device listing is a full-table reduction keeping, per device,
exactly the reading with the maximum timestamp, sorted by last-seen
descending: when the scan cap is not reached, the result has one summary
per distinct device of the table, every summary is witnessed by a reading
of its device whose timestamp no other reading of that device exceeds, and
the result is sorted by `last_seen` descending. -/
theorem device_listing_reduction (pages : List (List DeviceItem)) (limit : Nat)
    (hcap : pages.flatten.length < limit) :
    ((getAllDevices pages limit).map (fun s => s.device_id)).Nodup ∧
    (∀ d : String, (∃ s ∈ getAllDevices pages limit, s.device_id = d) ↔
      (∃ it ∈ pages.flatten, it.device_id = d)) ∧
    (∀ s ∈ getAllDevices pages limit, ∃ it ∈ pages.flatten,
      it.device_id = s.device_id ∧ it.timestamp = s.last_seen ∧
      it.gateway_id = s.gateway_id ∧ it.server_timestamp = s.last_seen_server) ∧
    (∀ s ∈ getAllDevices pages limit, ∀ it ∈ pages.flatten,
      it.device_id = s.device_id → it.timestamp ≤ s.last_seen) ∧
    (getAllDevices pages limit).Pairwise
      (fun a b => b.last_seen ≤ a.last_seen) := by
  cases pages with
  | nil =>
      refine ⟨by simp [getAllDevices], ?_, ?_, ?_, by simp [getAllDevices]⟩
      · intro d
        simp [getAllDevices]
      · intro s hs
        simp [getAllDevices] at hs
      · intro s hs
        simp [getAllDevices] at hs
  | cons p rest =>
      have hinv0 : DevInv ([] : List DeviceSummary) ([] : List DeviceItem) := by
        refine ⟨by simp, ?_, by simp, by simp⟩
        intro d
        simp
      have hinv1 : DevInv (reduceDevices [] p) p := by
        simpa using reduceDevices_inv p [] [] hinv0
      have hlen1 : (reduceDevices [] p).length + rest.flatten.length < limit := by
        have h1 := reduceDevices_length_le p []
        simp only [List.flatten_cons, List.length_append] at hcap
        simp only [List.length_nil] at h1
        omega
      have hproc : processPages limit (reduceDevices [] p) rest =
          reduceDevices (reduceDevices [] p) rest.flatten :=
        processPages_all limit rest (reduceDevices [] p) hlen1
      have hfold : reduceDevices (reduceDevices [] p) rest.flatten =
          reduceDevices [] (p :: rest).flatten := by
        rw [List.flatten_cons, reduceDevices, reduceDevices, reduceDevices, List.foldl_append]
      have hinv : DevInv (processPages limit (reduceDevices [] p) rest)
          (p :: rest).flatten := by
        rw [hproc, hfold]
        have := reduceDevices_inv (p :: rest).flatten [] [] hinv0
        simpa using this
      obtain ⟨i1, i2, i3, i4⟩ := hinv
      have hgad : getAllDevices (p :: rest) limit =
          (processPages limit (reduceDevices [] p) rest).mergeSort
            (fun a b => b.last_seen ≤ a.last_seen) := rfl
      have hperm : (getAllDevices (p :: rest) limit).Perm
          (processPages limit (reduceDevices [] p) rest) := by
        rw [hgad]
        exact List.mergeSort_perm _ _
      refine ⟨?_, ?_, ?_, ?_, ?_⟩
      · have := hperm.map (fun s => s.device_id)
        exact this.nodup_iff.mpr i1
      · intro d
        rw [← i2 d]
        constructor
        · rintro ⟨s, hs, rfl⟩
          exact ⟨s, hperm.mem_iff.mp hs, rfl⟩
        · rintro ⟨s, hs, rfl⟩
          exact ⟨s, hperm.mem_iff.mpr hs, rfl⟩
      · intro s hs
        exact i3 s (hperm.mem_iff.mp hs)
      · intro s hs
        exact i4 s (hperm.mem_iff.mp hs)
      · rw [hgad]
        have hsorted := @List.sorted_mergeSort DeviceSummary
          (fun (a b : DeviceSummary) => decide (b.last_seen ≤ a.last_seen))
          (fun a b c hab hbc => by
            simp only [decide_eq_true_eq] at hab hbc ⊢
            omega)
          (fun a b => by
            simp only [Bool.or_eq_true, decide_eq_true_eq]
            omega)
          (processPages limit (reduceDevices [] p) rest)
        exact hsorted.imp (fun hab => by simpa using hab)

/-- Witness for C9 at the spec's example: both devices appear exactly once,
the first device's `last_seen` is the maximum timestamp 30, and the result
is sorted by `last_seen` descending. -/
theorem device_listing_reduction_witness :
    "AABBCCDDEE01" ∈ ((getAllDevices examplePages 1000).map (fun s => s.device_id)) ∧
    "AABBCCDDEE02" ∈ ((getAllDevices examplePages 1000).map (fun s => s.device_id)) ∧
    ((getAllDevices examplePages 1000).map (fun s => s.device_id)).Nodup ∧
    ((getAllDevices examplePages 1000).filter
        (fun s => s.device_id == "AABBCCDDEE01")).all (fun s => s.last_seen == 30) = true ∧
    (getAllDevices examplePages 1000).Pairwise (fun a b => b.last_seen ≤ a.last_seen) := by
  obtain ⟨i1, i2, i3, i4, i5⟩ := device_listing_reduction examplePages 1000 (by decide)
  refine ⟨?_, ?_, i1, ?_, i5⟩
  · rw [← exists_id_iff_mem_map]
    refine (i2 "AABBCCDDEE01").mpr
      ⟨{ device_id := "AABBCCDDEE01", gateway_id := "AA:BB:CC:DD:EE:FF",
         timestamp := 30, server_timestamp := 130 }, by decide, rfl⟩
  · rw [← exists_id_iff_mem_map]
    refine (i2 "AABBCCDDEE02").mpr
      ⟨{ device_id := "AABBCCDDEE02", gateway_id := "AA:BB:CC:DD:EE:FF",
         timestamp := 40, server_timestamp := 140 }, by decide, rfl⟩
  · rw [List.all_eq_true]
    intro s hs
    rw [List.mem_filter] at hs
    obtain ⟨hmem, hid⟩ := hs
    have hsid : s.device_id = "AABBCCDDEE01" := by simpa using hid
    have hge : (30 : Int) ≤ s.last_seen := by
      refine i4 s hmem
        { device_id := "AABBCCDDEE01", gateway_id := "AA:BB:CC:DD:EE:FF",
          timestamp := 30, server_timestamp := 130 } (by decide) ?_
      rw [hsid]
    obtain ⟨it, hitmem, hids, hts, _, _⟩ := i3 s hmem
    have hcases := hitmem
    simp only [examplePages, List.flatten, List.append_nil, List.mem_cons,
      List.not_mem_nil, or_false] at hcases
    have hbeq : s.last_seen = 30 := by
      rcases hcases with h | h | h | h <;> rw [h] at hids hts <;>
        simp only at hids hts
      · rw [hsid] at hids
        omega
      · rw [hsid] at hids
        omega
      · omega
      · rw [hsid] at hids
        exact absurd hids (by decide)
    simp [hbeq]

/-! ## Pagination cursor theorems -/

theorem d64_e64 : ∀ n, n < 64 → d64 (e64 n) = some n := by decide

theorem e64_ne_pad : ∀ n, n < 64 → e64 n ≠ '=' := by decide

theorem b64_roundtrip : ∀ bs : List Nat, (∀ b ∈ bs, b < 256) →
    b64decodeChars (b64encodeBytes bs) = some bs
  | [], _ => rfl
  | [a], h => by
      have ha : a < 256 := h a (by simp)
      have h1 : d64 (e64 (a / 4)) = some (a / 4) := d64_e64 _ (by omega)
      have h2 : d64 (e64 (a % 4 * 16)) = some (a % 4 * 16) := d64_e64 _ (by omega)
      show b64decodeChars [e64 (a / 4), e64 (a % 4 * 16), '=', '='] = some [a]
      simp only [b64decodeChars, h1, h2, and_self, if_true, reduceIte]
      have : a / 4 * 4 + a % 4 * 16 / 16 = a := by omega
      rw [this]
  | [a, b], h => by
      have ha : a < 256 := h a (by simp)
      have hb : b < 256 := h b (by simp)
      have h1 : d64 (e64 (a / 4)) = some (a / 4) := d64_e64 _ (by omega)
      have h2 : d64 (e64 (a % 4 * 16 + b / 16)) = some (a % 4 * 16 + b / 16) :=
        d64_e64 _ (by omega)
      have h3 : d64 (e64 (b % 16 * 4)) = some (b % 16 * 4) := d64_e64 _ (by omega)
      have hne : ¬ (e64 (b % 16 * 4) = '=' ∧ ('=' : Char) = '=') := by
        intro hh
        exact e64_ne_pad _ (by omega) hh.1
      show b64decodeChars [e64 (a / 4), e64 (a % 4 * 16 + b / 16), e64 (b % 16 * 4), '='] =
        some [a, b]
      have e1 : a / 4 * 4 + (a % 4 * 16 + b / 16) / 16 = a := by omega
      have e2 : (a % 4 * 16 + b / 16) % 16 * 16 + b % 16 * 4 / 4 = b := by omega
      simp only [b64decodeChars, hne, if_false, reduceIte, h1, h2, h3, e1, e2]
      rw [if_neg (fun hh => e64_ne_pad (b % 16 * 4) (by omega) hh.1)]
  | a :: b :: c :: rest, h => by
      have ha : a < 256 := h a (by simp)
      have hb : b < 256 := h b (by simp)
      have hc : c < 256 := h c (by simp)
      have hrest : ∀ x ∈ rest, x < 256 := fun x hx => h x (by simp [hx])
      have ih := b64_roundtrip rest hrest
      have h1 : d64 (e64 (a / 4)) = some (a / 4) := d64_e64 _ (by omega)
      have h2 : d64 (e64 (a % 4 * 16 + b / 16)) = some (a % 4 * 16 + b / 16) :=
        d64_e64 _ (by omega)
      have h3 : d64 (e64 (b % 16 * 4 + c / 64)) = some (b % 16 * 4 + c / 64) :=
        d64_e64 _ (by omega)
      have h4 : d64 (e64 (c % 64)) = some (c % 64) := d64_e64 _ (by omega)
      have hne1 : ¬ (e64 (b % 16 * 4 + c / 64) = '=' ∧ e64 (c % 64) = '=') := by
        intro hh
        exact e64_ne_pad _ (by omega) hh.1
      have hne2 : (e64 (c % 64) = '=') = False :=
        eq_false (e64_ne_pad _ (by omega))
      show b64decodeChars (e64 (a / 4) :: e64 (a % 4 * 16 + b / 16) ::
        e64 (b % 16 * 4 + c / 64) :: e64 (c % 64) :: b64encodeBytes rest) =
        some (a :: b :: c :: rest)
      have e1 : a / 4 * 4 + (a % 4 * 16 + b / 16) / 16 = a := by omega
      have e2 : (a % 4 * 16 + b / 16) % 16 * 16 + (b % 16 * 4 + c / 64) / 4 = b := by omega
      have e3 : (b % 16 * 4 + c / 64) % 4 * 64 + c % 64 = c := by omega
      simp only [b64decodeChars, hne2, if_false, reduceIte, h1, h2, h3, h4, ih, e1, e2, e3]
      rw [if_neg (fun hh => hh.2)]

theorem strBytes_roundtrip (cs : List Char) (h : ∀ c ∈ cs, c.toNat < 128) :
    bytesToChars (strToBytes cs) = some cs := by
  unfold bytesToChars strToBytes
  have hall : (cs.map Char.toNat).all (fun b => decide (b < 128)) = true := by
    rw [List.all_eq_true]
    intro b hb
    obtain ⟨c, hc, rfl⟩ := List.mem_map.mp hb
    exact decide_eq_true (h c hc)
  rw [if_pos hall, List.map_map]
  have : cs.map (Char.ofNat ∘ Char.toNat) = cs.map id :=
    List.map_congr_left (fun c _ => Char.ofNat_toNat c)
  rw [this, List.map_id]

theorem digitChar_toNat : ∀ d, d < 10 → (digitChar d).toNat = 48 + d := by decide

theorem digitChar_isDigit : ∀ d, d < 10 → (digitChar d).isDigit = true := by decide

theorem natOfDigits_append_one (ds : List Char) (c : Char) :
    natOfDigits (ds ++ [c]) = natOfDigits ds * 10 + (c.toNat - 48) := by
  unfold natOfDigits
  rw [List.foldl_append]
  rfl

theorem digitsOfAux_spec : ∀ fuel n, n < fuel →
    natOfDigits (digitsOfAux fuel n) = n ∧ digitsOfAux fuel n ≠ [] ∧
    ∀ c ∈ digitsOfAux fuel n, c.isDigit = true ∧ c.toNat < 128 := by
  intro fuel
  induction fuel with
  | zero => intro n hn; omega
  | succ f ih =>
      intro n hn
      have hdef : digitsOfAux (f + 1) n =
          (if n < 10 then [digitChar n]
           else digitsOfAux f (n / 10) ++ [digitChar (n % 10)]) := rfl
      by_cases h10 : n < 10
      · have hu : digitsOfAux (f + 1) n = [digitChar n] := by
          rw [hdef, if_pos h10]
        rw [hu]
        refine ⟨?_, by simp, ?_⟩
        · show natOfDigits ([] ++ [digitChar n]) = n
          rw [natOfDigits_append_one, digitChar_toNat n h10]
          show 0 * 10 + (48 + n - 48) = n
          omega
        · intro c hc
          simp only [List.mem_singleton] at hc
          rw [hc]
          have := digitChar_toNat n h10
          exact ⟨digitChar_isDigit n h10, by omega⟩
      · have hu : digitsOfAux (f + 1) n = digitsOfAux f (n / 10) ++ [digitChar (n % 10)] := by
          rw [hdef, if_neg h10]
        have hlt : n / 10 < f := by omega
        obtain ⟨iv, ine, idig⟩ := ih (n / 10) hlt
        rw [hu]
        refine ⟨?_, by simp, ?_⟩
        · rw [natOfDigits_append_one, iv, digitChar_toNat (n % 10) (by omega)]
          omega
        · intro c hc
          rw [List.mem_append] at hc
          rcases hc with hc | hc
          · exact idig c hc
          · simp only [List.mem_singleton] at hc
            rw [hc]
            have := digitChar_toNat (n % 10) (by omega)
            exact ⟨digitChar_isDigit (n % 10) (by omega), by omega⟩

theorem digitsOf_spec (n : Nat) :
    natOfDigits (digitsOf n) = n ∧ digitsOf n ≠ [] ∧
    ∀ c ∈ digitsOf n, c.isDigit = true ∧ c.toNat < 128 :=
  digitsOfAux_spec (n + 1) n (by omega)

theorem takeWhile_append_stop (p : Char → Bool) :
    ∀ (xs : List Char) (y : Char) (ys : List Char),
    (∀ x ∈ xs, p x = true) → p y = false →
    ((xs ++ y :: ys).takeWhile p = xs ∧ (xs ++ y :: ys).drop xs.length = y :: ys) := by
  intro xs
  induction xs with
  | nil =>
      intro y ys _ hy
      simp [List.takeWhile_cons, hy]
  | cons x xs ih =>
      intro y ys hxs hy
      obtain ⟨ih1, ih2⟩ := ih y ys (fun a ha => hxs a (by simp [ha])) hy
      constructor
      · rw [List.cons_append, List.takeWhile_cons, hxs x (by simp), ih1]
        simp
      · simp

theorem plainChar_components (c : Char) (h : plainChar c = true) :
    32 ≤ c.toNat ∧ c.toNat < 127 ∧ c ≠ '"' ∧ c ≠ '\\' := by
  simp only [plainChar, Bool.and_eq_true, decide_eq_true_eq] at h
  exact ⟨h.1.1.1, h.1.1.2, h.1.2, h.2⟩

theorem parseLastKeyChars_spec (dev ds : List Char)
    (hdev : ∀ c ∈ dev, plainChar c = true)
    (hds : ds ≠ []) (hdigits : ∀ c ∈ ds, c.isDigit = true) :
    parseLastKeyChars ("\x7b\"device_id\": \"".toList ++ (dev ++
      ("\", \"timestamp\": ".toList ++ (ds ++ ['\x7d'])))) =
      some { device_id := String.mk dev, timestamp := natOfDigits ds } := by
  have hdevq : ∀ x ∈ dev, (fun c => decide (c ≠ '"')) x = true := by
    intro x hx
    exact decide_eq_true (plainChar_components x (hdev x hx)).2.2.1
  have hsplit : ("\", \"timestamp\": ".toList ++ (ds ++ ['\x7d'])) =
      '"' :: (", \"timestamp\": ".toList ++ (ds ++ ['\x7d'])) := rfl
  obtain ⟨htw, hdw⟩ := takeWhile_append_stop (fun c => decide (c ≠ '"')) dev '"'
    (", \"timestamp\": ".toList ++ (ds ++ ['\x7d'])) hdevq (by decide)
  obtain ⟨htw2, _⟩ := takeWhile_append_stop Char.isDigit ds '\x7d' [] hdigits (by decide)
  simp only [parseLastKeyChars]
  rw [List.take_left, if_pos rfl, List.drop_left]
  rw [congrArg (fun z => dev ++ z) hsplit]
  rw [htw, hdw]
  rw [← hsplit]
  rw [List.take_left, if_pos rfl, List.drop_left]
  rw [htw2]
  rw [if_pos ⟨hds, rfl⟩]

set_option maxHeartbeats 1000000 in
theorem next_token_roundtrip (k : LastKey)
    (h : k.device_id.toList.all plainChar = true) :
    decodeNextToken (encodeNextToken k) = some k := by
  have hplain : ∀ c ∈ k.device_id.toList, plainChar c = true := List.all_eq_true.mp h
  obtain ⟨hval, hne, hdig⟩ := digitsOf_spec k.timestamp
  have hascii : ∀ c ∈ dumpsLastKey k, c.toNat < 128 := by
    intro c hc
    have hlit1 : ∀ c ∈ "\x7b\"device_id\": \"".toList, c.toNat < 128 := by decide
    have hlit2 : ∀ c ∈ "\", \"timestamp\": ".toList, c.toNat < 128 := by decide
    simp only [dumpsLastKey, List.mem_append, List.mem_singleton] at hc
    rcases hc with ((((hc | hc) | hc) | hc) | hc)
    · exact hlit1 c hc
    · have := (plainChar_components c (hplain c hc)).2.1
      omega
    · exact hlit2 c hc
    · exact (hdig c hc).2
    · rw [hc]
      decide
  have hbytes : ∀ b ∈ strToBytes (dumpsLastKey k), b < 256 := by
    intro b hb
    obtain ⟨c, hc, rfl⟩ := List.mem_map.mp hb
    have := hascii c hc
    omega
  unfold decodeNextToken encodeNextToken
  rw [b64_roundtrip _ hbytes]
  show (bytesToChars (strToBytes (dumpsLastKey k))).bind parseLastKeyChars = some k
  rw [strBytes_roundtrip _ hascii]
  show parseLastKeyChars (dumpsLastKey k) = some k
  have hform : dumpsLastKey k = "\x7b\"device_id\": \"".toList ++ (k.device_id.toList ++
      ("\", \"timestamp\": ".toList ++ (digitsOf k.timestamp ++ ['\x7d']))) := by
    simp [dumpsLastKey, List.append_assoc]
  rw [hform, parseLastKeyChars_spec k.device_id.toList (digitsOf k.timestamp) hplain hne
    (fun c hc => (hdig c hc).1)]
  rw [hval]
  rfl

theorem le_getLast_of_sorted (l : List HistItem) (z : HistItem)
    (h : l.Pairwise (fun a b => a.timestamp < b.timestamp))
    (hz : l.getLast? = some z) : ∀ y ∈ l, y.timestamp ≤ z.timestamp := by
  induction l with
  | nil => simp at hz
  | cons a l ih =>
      rw [List.pairwise_cons] at h
      cases l with
      | nil =>
          simp at hz
          intro y hy
          simp at hy
          rw [hy, ← hz]
      | cons b l2 =>
          have hz2 : (b :: l2).getLast? = some z := by
            rw [← List.getLast?_cons_cons]
            exact hz
          intro y hy
          rcases List.mem_cons.mp hy with rfl | hy2
          · have hzmem : z ∈ b :: l2 := List.mem_of_mem_getLast? hz2
            have := h.1 z hzmem
            omega
          · exact ih h.2 hz2 y hy2

/-- C8: the pagination cursor round-trips exactly — decoding the base64
`next_token` produced by encoding a last-evaluated key yields the identical
key — and a historical query resuming from a returned cursor never
re-returns an item of the page that produced the cursor. -/
theorem pagination_cursor_roundtrip :
    (∀ k : LastKey, k.device_id.toList.all plainChar = true →
      decodeNextToken (encodeNextToken k) = some k) ∧
    (∀ (items : List HistItem) (limit : Nat) (t : Nat),
      items.Pairwise (fun a b => a.timestamp < b.timestamp) →
      (queryPage items none limit).2 = some t →
      ∀ x ∈ (queryPage items (some t) limit).1, x ∉ (queryPage items none limit).1) ∧
    (∀ (items : List HistItem) (limit : Nat) (t : Nat) (d : String),
      d.toList.all plainChar = true →
      items.Pairwise (fun a b => a.timestamp < b.timestamp) →
      (queryPage items none limit).2 = some t →
      ∀ k2, decodeNextToken (encodeNextToken { device_id := d, timestamp := t }) = some k2 →
      ∀ x ∈ (queryPage items (some k2.timestamp) limit).1,
        x ∉ (queryPage items none limit).1) := by
  have hpart2 : ∀ (items : List HistItem) (limit : Nat) (t : Nat),
      items.Pairwise (fun a b => a.timestamp < b.timestamp) →
      (queryPage items none limit).2 = some t →
      ∀ x ∈ (queryPage items (some t) limit).1, x ∉ (queryPage items none limit).1 := by
    intro items limit t hsort hlek x hx hmem
    have hlek2 : (queryPage items none limit).2 =
        (if limit < items.length
         then ((items.take limit).getLast?).map (fun it => it.timestamp) else none) := rfl
    rw [hlek2] at hlek
    by_cases hlim : limit < items.length
    · rw [if_pos hlim] at hlek
      obtain ⟨z, hz, hzt⟩ := Option.map_eq_some'.mp hlek
      have hx2 : x ∈ items.filter (fun it => decide (t < it.timestamp)) :=
        (List.take_sublist _ _).subset hx
      have hxt : t < x.timestamp := by
        have := (List.mem_filter.mp hx2).2
        simpa using this
      have hsort1 : (items.take limit).Pairwise (fun a b => a.timestamp < b.timestamp) :=
        List.Pairwise.sublist (List.take_sublist _ _) hsort
      have hle := le_getLast_of_sorted (items.take limit) z hsort1 hz x hmem
      omega
    · rw [if_neg hlim] at hlek
      cases hlek
  refine ⟨next_token_roundtrip, hpart2, ?_⟩
  intro items limit t d hd hsort hlek k2 hk2 x hx
  have h1 := next_token_roundtrip { device_id := d, timestamp := t } hd
  rw [h1] at hk2
  have hk2eq : k2 = { device_id := d, timestamp := t } := (Option.some_inj.mp hk2).symm
  rw [hk2eq] at hx
  exact hpart2 items limit t hsort hlek x hx

/-- Witness for C8: the device-id/timestamp key round-trips through the
token, and the item returned by the resumed query was not in the first
page. -/
theorem pagination_cursor_roundtrip_witness :
    decodeNextToken (encodeNextToken { device_id := "AABBCCDDEEFF", timestamp := 1700000000 }) =
      some { device_id := "AABBCCDDEEFF", timestamp := 1700000000 } ∧
    ({ timestamp := 30, data := "c" } : HistItem) ∈
      (queryPage [⟨10, "a"⟩, ⟨20, "b"⟩, ⟨30, "c"⟩] (some 20) 2).1 ∧
    ({ timestamp := 30, data := "c" } : HistItem) ∉
      (queryPage [⟨10, "a"⟩, ⟨20, "b"⟩, ⟨30, "c"⟩] none 2).1 := by
  obtain ⟨p1, p2, _⟩ := pagination_cursor_roundtrip
  refine ⟨p1 _ (by decide), by decide, ?_⟩
  exact p2 [⟨10, "a"⟩, ⟨20, "b"⟩, ⟨30, "c"⟩] 2 20 (by decide) (by decide)
    { timestamp := 30, data := "c" } (by decide)

/-! ## Batch validation theorems -/

theorem not_isEmpty_filter_eq_any {α : Type} (p : α → Bool) (l : List α) :
    (!(l.filter p).isEmpty) = l.any p := by
  induction l with
  | nil => rfl
  | cons x xs ih =>
      by_cases h : p x = true
      · simp [List.filter_cons, h]
      · have h2 : p x = false := by simpa using h
        simp [List.filter_cons, h2, ih]

theorem validate_mkBatch (now ts : Int) (coords g : String) (tags : List (String × Json)) :
    validateRuuviRequest now (mkBatch coords ts g tags) =
      (schemaValidate (mkBatch coords ts g tags) &&
        (macOk g && decide ((now - ts).natAbs ≤ 86400) &&
          !(sensorDataList tags).isEmpty)) := rfl

theorem schemaValidate_mkBatch (coords : String) (ts : Int) (g : String)
    (tags : List (String × Json)) :
    schemaValidate (mkBatch coords ts g tags) =
      (decide (0 ≤ ts) && macOk g && tagsSchemaOk (Json.obj tags)) := rfl

theorem tagSchemaOk_mkTag (rssi tts : Int) (d : String) :
    tagSchemaOk (mkTag rssi tts d) =
      (decide (-120 ≤ rssi) && decide (rssi ≤ 0) && decide (0 ≤ tts) && b64Shape d) := rfl

theorem schemaValidate_bad_tag (coords : String) (ts : Int) (g : String)
    (tags : List (String × Json)) (k : String) (v : Json)
    (hmem : (k, v) ∈ tags) (hbad : tagSchemaOk v = false) :
    schemaValidate (mkBatch coords ts g tags) = false := by
  rw [schemaValidate_mkBatch]
  have hall : tags.all (fun kv => deviceKeyOk kv.1 && tagSchemaOk kv.2) = false := by
    cases hallc : tags.all (fun kv => deviceKeyOk kv.1 && tagSchemaOk kv.2) with
    | false => rfl
    | true =>
        have := List.all_eq_true.mp hallc (k, v) hmem
        simp only [Bool.and_eq_true] at this
        rw [hbad] at this
        exact absurd this.2 (by simp)
  have htags : tagsSchemaOk (Json.obj tags) = false := by
    simp [tagsSchemaOk, hall]
  rw [htags]
  simp

/-- C6 counterexample: a batch whose first entry fails only the
signal-strength check (`rssi = -121`) while a second, fully valid entry
remains.  The claim says the malformed entry is dropped and validation
succeeds; the code rejects the whole batch, because the rssi bound sits in
the JSON schema whose failure aborts validation entirely. -/
theorem batch_validation_policy_cex :
    validateRuuviRequest 1700000000 badRssiBatch = false ∧
    validateRuuviRequest 1700000000 goodOnlyBatch = true ∧
    fromDictOk "AABBCCDDEEFF" (mkTag (-121) 1700000000 "") = false ∧
    fromDictOk "AABBCCDDEE00" (mkTag (-65) 1700000000 "dGVzdA==") = true := by
  exact ⟨rfl, rfl, rfl, rfl⟩

/-- C6 (amended): batch validation aborts entirely on a malformed gateway
MAC, a missing required batch field, or any entry whose signal-strength
value is malformed (the rssi bound is schema-checked, so one bad entry
rejects the whole batch); only entries whose payload matches the base64
character pattern but fails the strict decode are dropped leniently, and
validation then succeeds as long as at least one valid entry remains. -/
theorem batch_validation_policy :
    (∀ (now ts : Int) (coords g : String) (tags : List (String × Json)),
      macOk g = false → validateRuuviRequest now (mkBatch coords ts g tags) = false) ∧
    (∀ (now : Int) (kvs : List (String × Json)), lookupAssoc kvs "tags" = none →
      validateRuuviRequest now (Json.obj [("data", Json.obj kvs)]) = false) ∧
    (∀ (now ts : Int) (coords g : String) (tags : List (String × Json))
      (k : String) (rssi tts : Int) (d : String),
      (k, mkTag rssi tts d) ∈ tags → (rssi < -120 ∨ 0 < rssi) →
      validateRuuviRequest now (mkBatch coords ts g tags) = false) ∧
    (∀ (now ts : Int) (coords g : String) (tags : List (String × Json)),
      schemaValidate (mkBatch coords ts g tags) = true → macOk g = true →
      (now - ts).natAbs ≤ 86400 → tags.any (fun kv => fromDictOk kv.1 kv.2) = true →
      validateRuuviRequest now (mkBatch coords ts g tags) = true) ∧
    (∀ (k : String) (rssi tts : Int) (s : String),
      deviceKeyOk k = true → -120 ≤ rssi → rssi ≤ 0 → 0 ≤ tts → b64Shape s = true →
      validateBase64 s = false →
      tagSchemaOk (mkTag rssi tts s) = true ∧ fromDictOk k (mkTag rssi tts s) = false) ∧
    (∀ tags : List (String × Json),
      sensorDataList tags = tags.filter (fun kv => fromDictOk kv.1 kv.2)) := by
  refine ⟨?_, ?_, ?_, ?_, ?_, fun _ => rfl⟩
  · intro now ts coords g tags hmac
    rw [validate_mkBatch]
    simp [hmac]
  · intro now kvs h
    have hd : dataSchemaOk (Json.obj kvs) = false := by
      simp [dataSchemaOk, h]
    have hs : schemaValidate (Json.obj [("data", Json.obj kvs)]) = false := by
      simp [schemaValidate, lookupAssoc, hd]
    simp [validateRuuviRequest, hs]
  · intro now ts coords g tags k rssi tts d hmem hr
    have hbad : tagSchemaOk (mkTag rssi tts d) = false := by
      rw [tagSchemaOk_mkTag]
      rcases hr with h | h
      · have : decide (-120 ≤ rssi) = false := by simp; omega
        simp [this]
      · have : decide (rssi ≤ 0) = false := by simp; omega
        simp [this]
    have hschema := schemaValidate_bad_tag coords ts g tags k _ hmem hbad
    rw [validate_mkBatch]
    simp [hschema]
  · intro now ts coords g tags hs hmac hts hany
    rw [validate_mkBatch]
    have hne : (!(sensorDataList tags).isEmpty) = true := by
      rw [sensorDataList, not_isEmpty_filter_eq_any]
      exact hany
    simp [hs, hmac, hts, hne]
  · intro k rssi tts s hk h1 h2 h3 hshape hb64
    constructor
    · rw [tagSchemaOk_mkTag]
      simp [h1, h2, h3, hshape]
    · simp [fromDictOk, mkTag, lookupAssoc, List.find?, hb64]

/-- Witness for C6 (amended): a malformed MAC aborts; the bad-rssi batch is
rejected; a batch whose first payload matches the base64 pattern but fails
strict decoding validates thanks to its second entry; that entry is schema
legal yet dropped. -/
theorem batch_validation_policy_witness :
    validateRuuviRequest 1700000000
      (mkBatch "" 1700000000 "XX" [("AABBCCDDEE00", mkTag (-65) 1700000000 "")]) = false ∧
    validateRuuviRequest 1700000000
      (mkBatch "" 1700000000 "AA:BB:CC:DD:EE:FF"
        [("AABBCCDDEEFF", mkTag (-121) 1700000000 ""),
         ("AABBCCDDEE00", mkTag (-65) 1700000000 "dGVzdA==")]) = false ∧
    validateRuuviRequest 1700000000
      (mkBatch "" 1700000000 "AA:BB:CC:DD:EE:FF"
        [("AABBCCDDEEFF", mkTag (-65) 1700000000 "abcde"),
         ("AABBCCDDEE00", mkTag (-65) 1700000000 "dGVzdA==")]) = true ∧
    (tagSchemaOk (mkTag (-65) 1700000000 "abcde") = true ∧
      fromDictOk "AABBCCDDEEFF" (mkTag (-65) 1700000000 "abcde") = false) := by
  obtain ⟨p1, p2, p3, p4, p5, p6⟩ := batch_validation_policy
  refine ⟨p1 1700000000 1700000000 "" "XX" _ (by decide), ?_, ?_, ?_⟩
  · exact p3 1700000000 1700000000 "" "AA:BB:CC:DD:EE:FF" _ "AABBCCDDEEFF"
      (-121) 1700000000 "" (List.Mem.head _) (Or.inl (by decide))
  · exact p4 1700000000 1700000000 "" "AA:BB:CC:DD:EE:FF" _ (by decide) (by decide)
      (by decide) (by decide)
  · exact p5 "AABBCCDDEEFF" (-65) 1700000000 "abcde" (by decide) (by decide) (by decide)
      (by decide) (by decide) (by decide)

end Ruuvi
